import Mathlib

/-!
The gin_helper bridge: native object / script handle lifetime bridge

A shallow embedding of `shell/common/gin_helper/wrappable.cc` and
`shell/common/gin_helper/destroyable.cc`.

The script engine is represented by an explicit `World`: the heap of script
objects with their internal fields, the memory of the `WrappableBase`
sub-objects, a per-address counter of executed `delete` expressions, the
queue of scheduled second-pass callbacks and a log of effects.
-/

namespace gin_helper

/-! ## Raw pointers, script objects, native objects -/

/-- A raw `void*` as stored in an internal field: the null pointer, the address
of the file-static `kElectronEmbedderId`, or any other address. -/
inductive Ptr where
  | null
  | embedderId
  | addr (a : Nat)
  deriving DecidableEq, Repr

/-- Identity of a `v8::Object` in the script heap. -/
abbrev HandleId := Nat

/-- A `v8::Isolate*`. -/
abbrev Isolate := Nat

/-- Calls that script code can make through the surface this layer installs. -/
inductive ScriptCall where
  | destroy (h : HandleId)
  | isDestroyed (h : HandleId)
  deriving DecidableEq, Repr

/-- A `v8::Object`: its internal fields and its `_init` member (the body of the
function, when the object has one). -/
structure Obj where
  fields : List Ptr
  init : Option (List ScriptCall)
  deriving DecidableEq, Repr

/-- A `v8::Value`: either an object or something that is not an object. -/
inductive Value where
  | nonObject
  | object (o : Obj)
  deriving DecidableEq, Repr

/-- A `v8::Global<v8::Object>`: the object it refers to (empty when `none`) and
the parameter of its weak callback (strong when `none`). The weak callback of
this layer is always `FirstWeakCallback` with `kInternalFields`. -/
structure Global where
  target : Option HandleId
  weak : Option Ptr
  deriving DecidableEq, Repr

/-- The data members of `WrappableBase`. -/
structure WrappableBase where
  isolate_ : Isolate
  wrapper_ : Global
  deriving DecidableEq, Repr

/-- The `v8::WeakCallbackInfo` handed to both passes: the weak parameter and
the internal fields captured from the dying object. -/
structure WeakCallbackInfo where
  parameter : Ptr
  fields : List Ptr
  deriving DecidableEq, Repr

/-- Effects recorded in program order. -/
inductive Event where
  | setField (h : HandleId) (i : Nat) (p : Ptr)
  | globalReset (self : Nat) (h : Option HandleId)
  | setWeak (self : Nat)
  | clearWeak (self : Nat)
  | call (h : HandleId) (argc : Nat)
  | afterInit (self : Nat)
  | deleted (p : Ptr)
  | secondPass (p : Ptr)
  deriving DecidableEq, Repr

/-- The state of the process. -/
structure World where
  heap : HandleId → Obj
  collected : HandleId → Bool
  natives : Nat → WrappableBase
  freed : Ptr → Nat
  pending : List WeakCallbackInfo
  log : List Event

/-- Ways in which the process stops, with the state at that point. -/
inductive Fault where
  | check (w : World)
  | fieldIndex (w : World)

/-- The outcome of reading internal fields: the value (`none` when an index was
out of range) and the indices that were read, in order. -/
structure Access (α : Type) where
  result : Option α
  reads : List Nat
  deriving DecidableEq, Repr

/-- A computation that reads nothing. -/
def Access.pure {α : Type} (a : α) : Access α := ⟨some a, []⟩

/-- Sequencing of reads. -/
def Access.bind {α β : Type} (x : Access α) (f : α → Access β) : Access β :=
  match x.result with
  | none => ⟨none, x.reads⟩
  | some a => ⟨(f a).result, x.reads ++ (f a).reads⟩

/-- Modelled from the spec: the enum `WrappableBase::InternalFields` of
`wrappable_base.h`; slot A is internal field 0. -/
def WrappableBase.kWrapperType : Nat := 0

/-- Modelled from the spec: the enum `WrappableBase::InternalFields` of
`wrappable_base.h`; slot B is internal field 1. -/
def WrappableBase.kSlot : Nat := 1

/-- Modelled from the spec: the enum `WrappableBase::InternalFields` of
`wrappable_base.h`; a handle has exactly two internal slots. -/
def WrappableBase.kInternalFieldCount : Nat := 2

open WrappableBase (kWrapperType kSlot kInternalFieldCount)

/-- The address `&kElectronEmbedderId`. -/
def kElectronEmbedderId : Ptr := Ptr.embedderId

/-! ## Engine primitives -/

/-- `v8::Object::InternalFieldCount`. -/
def Obj.InternalFieldCount (o : Obj) : Nat := o.fields.length

/-- `v8::Object::GetAlignedPointerFromInternalField`. -/
def Obj.GetAlignedPointerFromInternalField (o : Obj) (i : Nat) : Access Ptr :=
  ⟨o.fields[i]?, [i]⟩

/-- `v8::WeakCallbackInfo::GetInternalField`. -/
def WeakCallbackInfo.GetInternalField (d : WeakCallbackInfo) (i : Nat) : Ptr :=
  d.fields.getD i Ptr.null

/-- `v8::Global::IsEmpty`. -/
def Global.IsEmpty (g : Global) : Bool := g.target.isNone

/-- Overwrite one entry of a table. -/
def setAt {κ α : Type} [DecidableEq κ] (f : κ → α) (k : κ) (v : α) : κ → α :=
  fun x => if x = k then v else f x

/-- `v8::Object::SetAlignedPointerInInternalField`. -/
def World.SetAlignedPointerInInternalField (w : World) (h : HandleId) (i : Nat)
    (p : Ptr) : Except Fault World :=
  if i < (w.heap h).InternalFieldCount then
    Except.ok { w with
      heap := setAt w.heap h { w.heap h with fields := (w.heap h).fields.set i p }
      log := w.log ++ [Event.setField h i p] }
  else
    Except.error (Fault.fieldIndex w)

/-- Assignment to the `wrapper_` member of the object at `self`. -/
def World.setWrapper (w : World) (self : Nat) (g : Global) : World :=
  { w with natives := setAt w.natives self { w.natives self with wrapper_ := g } }

/-- The call `wrapper_.Reset()` on the object at `self`. -/
def World.Reset (w : World) (self : Nat) : World :=
  { w.setWrapper self ⟨none, none⟩ with log := w.log ++ [Event.globalReset self none] }

/-- The call `wrapper_.Reset(isolate, wrapper)` on the object at `self`. -/
def World.ResetTo (w : World) (self : Nat) (wrapper : HandleId) : World :=
  { w.setWrapper self ⟨some wrapper, none⟩ with
    log := w.log ++ [Event.globalReset self (some wrapper)] }

/-- The call `wrapper_.SetWeak(parameter, FirstWeakCallback, kInternalFields)`. -/
def World.SetWeak (w : World) (self : Nat) (parameter : Ptr) : World :=
  { w.setWrapper self { (w.natives self).wrapper_ with weak := some parameter } with
    log := w.log ++ [Event.setWeak self] }

/-- The call `wrapper_.ClearWeak()`. -/
def World.ClearWeak (w : World) (self : Nat) : World :=
  { w.setWrapper self { (w.natives self).wrapper_ with weak := none } with
    log := w.log ++ [Event.clearWeak self] }

/-! ## wrappable.cc -/

/-- `WrappableBase::isolate()`. -/
def WrappableBase.isolate (self : WrappableBase) : Isolate := self.isolate_

/-- `WrappableBase::GetWrapper() const`. -/
def WrappableBase.GetWrapper (self : WrappableBase) : Option HandleId :=
  if !self.wrapper_.IsEmpty then self.wrapper_.target else none

/-- `WrappableBase::GetWrapper(v8::Isolate*) const`. -/
def WrappableBase.GetWrapperIn (self : WrappableBase) (_isolate : Isolate) :
    Option HandleId :=
  if !self.wrapper_.IsEmpty then self.wrapper_.target else none

/-- `WrappableBase::~WrappableBase`, run on the object at address `self`. -/
def WrappableBase.Destructor (w : World) (self : Nat) : Except Fault World :=
  if (w.natives self).wrapper_.IsEmpty then
    Except.ok w
  else
    match (w.natives self).GetWrapper with
    | none => Except.ok w
    | some h =>
      match w.SetAlignedPointerInInternalField h kSlot Ptr.null with
      | Except.error e => Except.error e
      | Except.ok w1 => Except.ok ((w1.ClearWeak self).Reset self)

/-- The expression `delete static_cast<WrappableBase*>(p)`: nothing for a null
pointer; otherwise the destructor runs on the memory at `p` and the storage is
released, which the counter `freed p` records. -/
def World.delete (w : World) (p : Ptr) : Except Fault World :=
  match p with
  | Ptr.null => Except.ok w
  | Ptr.embedderId =>
    Except.ok { w with
      freed := setAt w.freed Ptr.embedderId (w.freed Ptr.embedderId + 1)
      log := w.log ++ [Event.deleted Ptr.embedderId] }
  | Ptr.addr a =>
    match WrappableBase.Destructor w a with
    | Except.error e => Except.error e
    | Except.ok w1 =>
      Except.ok { w1 with
        freed := setAt w1.freed (Ptr.addr a) (w1.freed (Ptr.addr a) + 1)
        log := w1.log ++ [Event.deleted (Ptr.addr a)] }

/-! ## destroyable.cc -/

/-- `Destroyable::IsDestroyed`. The right operand of `||` is evaluated only when
the left one is false. -/
def Destroyable.IsDestroyed (object : Obj) : Access Bool :=
  if object.InternalFieldCount ≤ kSlot then
    Access.pure true
  else
    (object.GetAlignedPointerFromInternalField kSlot).bind
      (fun p => Access.pure (decide (p = Ptr.null)))

/-- `DestroyFunc`, the callback behind the script-visible `destroy`, with
`info.Holder()` being the object `holder`. -/
def DestroyFunc (w : World) (holder : HandleId) : Except Fault World :=
  match (Destroyable.IsDestroyed (w.heap holder)).result with
  | none => Except.error (Fault.fieldIndex w)
  | some true => Except.ok w
  | some false =>
    match ((w.heap holder).GetAlignedPointerFromInternalField kSlot).result with
    | none => Except.error (Fault.fieldIndex w)
    | some p =>
      match w.delete p with
      | Except.error e => Except.error e
      | Except.ok w1 => w1.SetAlignedPointerInInternalField holder kSlot Ptr.null

/-- `IsDestroyedFunc`, the callback behind the script-visible `isDestroyed`:
the value handed back to the script. -/
def IsDestroyedFunc (w : World) (holder : HandleId) : Option Bool :=
  (Destroyable.IsDestroyed (w.heap holder)).result

/-- One call made by script code. -/
def runCall (w : World) : ScriptCall → Except Fault World
  | ScriptCall.destroy h => DestroyFunc w h
  | ScriptCall.isDestroyed h =>
    match IsDestroyedFunc w h with
    | none => Except.error (Fault.fieldIndex w)
    | some _ => Except.ok w

/-- The body of a script function, run call by call. -/
def runScript (w : World) : List ScriptCall → Except Fault World
  | [] => Except.ok w
  | c :: cs =>
    match runCall w c with
    | Except.error e => Except.error e
    | Except.ok w1 => runScript w1 cs

/-! ## wrappable.cc, continued -/

/-- Modelled from the spec: the virtual hook `WrappableBase::AfterInit` of
`wrappable_base.h`, in its base-class form, which only gets called. -/
def WrappableBase.AfterInit (w : World) (self : Nat) (_isolate : Isolate) : World :=
  { w with log := w.log ++ [Event.afterInit self] }

/-- Assignment to the `isolate_` member of the object at `self`. -/
def World.setIsolate (w : World) (self : Nat) (isolate : Isolate) : World :=
  { w with natives := setAt w.natives self { w.natives self with isolate_ := isolate } }

/-- `WrappableBase::InitWith`, run on the object at address `self`. -/
def WrappableBase.InitWith (w : World) (self : Nat) (isolate : Isolate)
    (wrapper : HandleId) : Except Fault World :=
  if !(w.natives self).wrapper_.IsEmpty then
    Except.error (Fault.check w)
  else
    let w0 := w.setIsolate self isolate
    match w0.SetAlignedPointerInInternalField wrapper kWrapperType kElectronEmbedderId with
    | Except.error e => Except.error e
    | Except.ok w1 =>
      match w1.SetAlignedPointerInInternalField wrapper kSlot (Ptr.addr self) with
      | Except.error e => Except.error e
      | Except.ok w2 =>
        let w3 := (w2.ResetTo self wrapper).SetWeak self (Ptr.addr self)
        let called :=
          match (w3.heap wrapper).init with
          | some body =>
            runScript { w3 with log := w3.log ++ [Event.call wrapper 0] } body
          | none => Except.ok w3
        match called with
        | Except.error e => Except.error e
        | Except.ok w4 => Except.ok (WrappableBase.AfterInit w4 self isolate)

/-- The part of `gin::Arguments` that `InitWithArgs` uses. -/
structure Arguments where
  isolate : Isolate
  holder : HandleId

/-- `WrappableBase::InitWithArgs`. -/
def WrappableBase.InitWithArgs (w : World) (self : Nat) (args : Arguments) :
    Except Fault World :=
  WrappableBase.InitWith w self args.isolate args.holder

/-- `WrappableBase::FirstWeakCallback`. -/
def WrappableBase.FirstWeakCallback (w : World) (data : WeakCallbackInfo) : World :=
  let wrappable := data.GetInternalField kSlot
  if wrappable ≠ Ptr.null then
    let w1 :=
      match wrappable with
      | Ptr.addr a => w.Reset a
      | _ => w
    { w1 with
      pending := w1.pending ++ [data]
      log := w1.log ++ [Event.secondPass wrappable] }
  else
    w

/-- `WrappableBase::SecondWeakCallback`. -/
def WrappableBase.SecondWeakCallback (w : World) (data : WeakCallbackInfo) :
    Except Fault World :=
  w.delete (data.GetInternalField kSlot)

/-- `internal::FromV8Impl`. -/
def internal.FromV8Impl (_isolate : Isolate) (val : Value) : Access Ptr :=
  match val with
  | Value.nonObject => Access.pure Ptr.null
  | Value.object obj =>
    if obj.InternalFieldCount ≠ kInternalFieldCount then
      Access.pure Ptr.null
    else
      (obj.GetAlignedPointerFromInternalField kWrapperType).bind (fun tag =>
        if kElectronEmbedderId ≠ tag then
          Access.pure Ptr.null
        else
          obj.GetAlignedPointerFromInternalField kSlot)

/-! ## The collector and the owner -/

/-- The collector finds the handle held weakly by the object at `n` unreachable:
it captures the handle's internal fields, reclaims the handle and runs the weak
callback. Nothing happens when `n` holds no weak handle. -/
def collectFirstPass (w : World) (n : Nat) : Option World :=
  match (w.natives n).wrapper_.target, (w.natives n).wrapper_.weak with
  | some h, some parameter =>
    some (WrappableBase.FirstWeakCallback
      { w with collected := setAt w.collected h true }
      ⟨parameter, (w.heap h).fields⟩)
  | _, _ => none

/-- The collector runs the oldest scheduled second pass. -/
def collectSecondPass (w : World) : Option World :=
  match w.pending with
  | [] => none
  | data :: rest =>
    match WrappableBase.SecondWeakCallback { w with pending := rest } data with
    | Except.error _ => none
    | Except.ok w1 => some w1

/-- The steps of the system. -/
inductive Step where
  | bind (n : Nat) (isolate : Isolate) (h : HandleId)
  | destroy (h : HandleId)
  | ownerDelete (n : Nat)
  | firstPass (n : Nat)
  | secondPass
  deriving DecidableEq, Repr

/-- Script code can only name handles that have not been reclaimed. -/
def ScriptCall.target : ScriptCall → HandleId
  | ScriptCall.destroy h => h
  | ScriptCall.isDestroyed h => h

/-- One step; `none` when the step is not enabled in `w` or the process stops.
`bind` hands a live native object and a reachable handle to `InitWith`, which
itself checks nothing about the handle; `destroy` is a script call on a
reachable handle; `ownerDelete` is `delete` on an object that has not been
deallocated. -/
def step (w : World) : Step → Option World
  | Step.bind n isolate h =>
    if w.freed (Ptr.addr n) = 0 ∧ w.collected h = false ∧
        (∀ c ∈ ((w.heap h).init.getD []), w.collected c.target = false) then
      (WrappableBase.InitWith w n isolate h).toOption
    else none
  | Step.destroy h =>
    if w.collected h = false then (DestroyFunc w h).toOption else none
  | Step.ownerDelete n =>
    if w.freed (Ptr.addr n) = 0 then (w.delete (Ptr.addr n)).toOption else none
  | Step.firstPass n => collectFirstPass w n
  | Step.secondPass => collectSecondPass w

/-- A run of steps. -/
def exec (w : World) : List Step → Option World
  | [] => some w
  | s :: rest =>
    match step w s with
    | none => none
    | some w1 => exec w1 rest

/-- Whether a step, when it is a bind, targets a handle whose slot B is null,
that is, a handle that carries no binding at that time. -/
def Step.bindsUnbound (w : World) : Step → Bool
  | Step.bind _ _ h => decide ((w.heap h).fields[kSlot]? = some Ptr.null)
  | _ => true

/-- A run in which every bind targets a handle that carries no binding. -/
def execOnce (w : World) : List Step → Option World
  | [] => some w
  | s :: rest =>
    if s.bindsUnbound w then
      match step w s with
      | none => none
      | some w1 => execOnce w1 rest
    else none

/-- The state before anything is bound: no native object holds a handle,
nothing has been deallocated, reclaimed or scheduled. -/
def World.initial (heap : HandleId → Obj) : World :=
  { heap := heap
    collected := fun _ => false
    natives := fun _ => ⟨0, ⟨none, none⟩⟩
    freed := fun _ => 0
    pending := []
    log := [] }

/-- A heap of newly allocated handles with two null internal fields. -/
def freshHeap : HandleId → Obj := fun _ => ⟨[Ptr.null, Ptr.null], none⟩

/-- The binding that `InitWith` establishes: the handle `h` carries the tag and
the address of the native object at `n`, that object holds `h` weakly with
itself as the callback parameter, and it has not been deallocated. -/
def Bound (w : World) (n : Nat) (h : HandleId) : Prop :=
  (w.heap h).fields = [kElectronEmbedderId, Ptr.addr n] ∧
  (w.natives n).wrapper_ = ⟨some h, some (Ptr.addr n)⟩ ∧
  w.freed (Ptr.addr n) = 0

instance (w : World) (n : Nat) (h : HandleId) : Decidable (Bound w n h) := by
  unfold Bound; infer_instance

/-- The callback `DestroyFunc` invoked `k` times in a row on the same holder. -/
def DestroyTimes (w : World) (holder : HandleId) : Nat → Except Fault World
  | 0 => Except.ok w
  | k + 1 =>
    match DestroyFunc w holder with
    | Except.error e => Except.error e
    | Except.ok w1 => DestroyTimes w1 holder k

/-- Whenever a native object refers to a handle, slot B of that handle holds the
address of the object. -/
def SlotInv (w : World) : Prop :=
  ∀ n h, (w.natives n).wrapper_.target = some h →
    (w.heap h).fields[kSlot]? = some (Ptr.addr n)

/-- The events that record a call of a hook: the script `_init` member or the
native `AfterInit`. -/
def Event.isHook : Event → Bool
  | Event.call _ _ => true
  | Event.afterInit _ => true
  | _ => false

/-- The native callbacks that `MakeDestroyable` wraps in function templates. -/
inductive Callback where
  | DestroyFunc
  | IsDestroyedFunc
  deriving DecidableEq, Repr

/-- A `v8::FunctionTemplate`: the isolate it was created in, its callback (when
it has one), whether it still has a prototype, and the properties set on its
`PrototypeTemplate()`, by name. -/
structure FunctionTemplate where
  isolate : Isolate
  callback : Option Callback
  hasPrototype : Bool
  prototypeTemplate : String → Option Nat

/-- The function templates of the process and the two function-local statics of
`GetDestroyFunc` and `GetIsDestroyedFunc` (a `v8::Global`, empty when `none`). -/
structure Templates where
  templ : Nat → FunctionTemplate
  next : Nat
  destroy_func : Option Nat
  is_destroyed_func : Option Nat

/-- `GetDestroyFunc`: the static global, read. -/
def GetDestroyFunc (s : Templates) : Option Nat := s.destroy_func

/-- `GetIsDestroyedFunc`: the static global, read. -/
def GetIsDestroyedFunc (s : Templates) : Option Nat := s.is_destroyed_func

/-- `v8::FunctionTemplate::New(isolate, callback)`: a new template. -/
def Templates.New (s : Templates) (isolate : Isolate) (callback : Callback) :
    Nat × Templates :=
  (s.next,
    { s with
      templ := setAt s.templ s.next ⟨isolate, some callback, true, fun _ => none⟩
      next := s.next + 1 })

/-- `v8::FunctionTemplate::RemovePrototype`. -/
def Templates.RemovePrototype (s : Templates) (t : Nat) : Templates :=
  { s with templ := setAt s.templ t { s.templ t with hasPrototype := false } }

/-- `PrototypeTemplate()->Set(name, value)` on the template `t`; the engine
stops on an empty `value`. -/
def Templates.Set (s : Templates) (t : Nat) (name : String) (value : Option Nat) :
    Option Templates :=
  match value with
  | none => none
  | some v =>
    some { s with
      templ := setAt s.templ t
        { s.templ t with prototypeTemplate := setAt (s.templ t).prototypeTemplate name (some v) } }

/-- `Destroyable::MakeDestroyable`; `none` when the engine stops. -/
def Destroyable.MakeDestroyable (s : Templates) (isolate : Isolate) (prototype : Nat) :
    Option Templates :=
  let s1 :=
    if (GetDestroyFunc s).isNone then
      let a := s.New isolate Callback.DestroyFunc
      let sa := { a.2.RemovePrototype a.1 with destroy_func := some a.1 }
      let b := sa.New isolate Callback.IsDestroyedFunc
      { b.2.RemovePrototype b.1 with is_destroyed_func := some b.1 }
    else s
  match s1.Set prototype "destroy" (GetDestroyFunc s1) with
  | none => none
  | some s2 => s2.Set prototype "isDestroyed" (GetIsDestroyedFunc s2)

/-- A sequence of `MakeDestroyable` calls, each with its isolate and prototype. -/
def makeAll (s : Templates) : List (Isolate × Nat) → Option Templates
  | [] => some s
  | c :: rest =>
    match Destroyable.MakeDestroyable s c.1 c.2 with
    | none => none
    | some s1 => makeAll s1 rest

/-- The process before the first `MakeDestroyable`: both statics are empty. -/
def Templates.initial (templ : Nat → FunctionTemplate) (next : Nat) : Templates :=
  { templ := templ, next := next, destroy_func := none, is_destroyed_func := none }

/-! ## Basic facts -/

@[simp] theorem setAt_same {κ α : Type} [DecidableEq κ] (f : κ → α) (k : κ) (v : α) :
    setAt f k v k = v := by
  simp [setAt]

theorem setAt_other {κ α : Type} [DecidableEq κ] (f : κ → α) (k x : κ) (v : α)
    (hx : x ≠ k) : setAt f k v x = f x := by
  simp [setAt, hx]

/-- The first `destroy` on a bound handle deletes the native object once and
leaves the handle with a null slot B. -/
theorem DestroyFunc_of_Bound (w : World) (n : Nat) (h : HandleId) (hb : Bound w n h) :
    ∃ w1, DestroyFunc w h = Except.ok w1 ∧
      w1.freed (Ptr.addr n) = 1 ∧
      (w1.heap h).fields = [kElectronEmbedderId, Ptr.null] ∧
      (w1.natives n).wrapper_ = ⟨none, none⟩ ∧
      w1.pending = w.pending ∧
      w1.log = w.log ++ [Event.setField h kSlot Ptr.null, Event.clearWeak n,
        Event.globalReset n none, Event.deleted (Ptr.addr n),
        Event.setField h kSlot Ptr.null] := by
  obtain ⟨hf, hw, hz⟩ := hb
  simp [DestroyFunc, Destroyable.IsDestroyed, Obj.InternalFieldCount,
    Obj.GetAlignedPointerFromInternalField, Access.bind, Access.pure, kSlot, hf,
    World.delete, WrappableBase.Destructor, Global.IsEmpty, hw,
    WrappableBase.GetWrapper, World.SetAlignedPointerInInternalField,
    World.ClearWeak, World.Reset, World.setWrapper, hz]

/-- A `destroy` on a handle whose slot B is null, or that has no slot B, does
nothing. -/
theorem DestroyFunc_of_destroyed (w : World) (h : HandleId)
    (hd : (Destroyable.IsDestroyed (w.heap h)).result = some true) :
    DestroyFunc w h = Except.ok w := by
  simp [DestroyFunc, hd]

/-- Repeating `destroy` on a handle that already reads as destroyed changes
nothing. -/
theorem DestroyTimes_of_destroyed (w : World) (h : HandleId)
    (hd : (Destroyable.IsDestroyed (w.heap h)).result = some true) (k : Nat) :
    DestroyTimes w h k = Except.ok w := by
  induction k with
  | zero => rfl
  | succ k ih => simp [DestroyTimes, DestroyFunc_of_destroyed w h hd, ih]

/-- A handle whose internal fields are the tag and null reads as destroyed. -/
theorem IsDestroyed_of_null_slot (o : Obj) (t : Ptr) (hf : o.fields = [t, Ptr.null]) :
    (Destroyable.IsDestroyed o).result = some true := by
  simp [Destroyable.IsDestroyed, Obj.InternalFieldCount,
    Obj.GetAlignedPointerFromInternalField, Access.bind, Access.pure, kSlot, hf]

/-! ## C1 -/

/-- C1: for a native object `n` bound to the two-slot handle `h`, and every
`k ≥ 1`, `k` invocations of the destroy callback on `h` succeed; the first one
deletes `n` (its deallocation count goes from 0 to 1), the count is still
exactly 1 after all `k`, the only `deleted` events added to the log are that
one, and `IsDestroyed(h)` is true after each of the `k` calls. -/
theorem C1_destroy_idempotent (w : World) (n : Nat) (h : HandleId)
    (hb : Bound w n h) (k : Nat) (hk : 1 ≤ k) :
    ∃ w1 wk, DestroyFunc w h = Except.ok w1 ∧ w1.freed (Ptr.addr n) = 1 ∧
      DestroyTimes w h k = Except.ok wk ∧ wk.freed (Ptr.addr n) = 1 ∧
      (wk.log.filter (fun e => e matches Event.deleted _)) =
        (w.log.filter (fun e => e matches Event.deleted _)) ++
          [Event.deleted (Ptr.addr n)] ∧
      ∀ j, 1 ≤ j → j ≤ k → ∃ wj, DestroyTimes w h j = Except.ok wj ∧
        (Destroyable.IsDestroyed (wj.heap h)).result = some true := by
  obtain ⟨w1, h1, hfreed, hfields, -, -, hlog⟩ := DestroyFunc_of_Bound w n h hb
  have hd : (Destroyable.IsDestroyed (w1.heap h)).result = some true :=
    IsDestroyed_of_null_slot _ _ hfields
  have hall : ∀ j, 1 ≤ j → DestroyTimes w h j = Except.ok w1 := by
    intro j hj
    obtain ⟨i, rfl⟩ : ∃ i, j = i + 1 := ⟨j - 1, by omega⟩
    simp [DestroyTimes, h1, DestroyTimes_of_destroyed w1 h hd]
  refine ⟨w1, w1, h1, hfreed, hall k hk, hfreed, ?_, ?_⟩
  · simp [hlog, List.filter_append]
  · intro j hj _
    exact ⟨w1, hall j hj, hd⟩

/-- C1 at a concrete input: object 7 bound by `InitWith` to the fresh handle 3,
then three `destroy` calls. -/
theorem C1_destroy_idempotent_witness :
    ∃ w0, WrappableBase.InitWith (World.initial freshHeap) 7 1 3 = Except.ok w0 ∧
      Bound w0 7 3 ∧
      ∃ w1 wk, DestroyFunc w0 3 = Except.ok w1 ∧ w1.freed (Ptr.addr 7) = 1 ∧
        DestroyTimes w0 3 3 = Except.ok wk ∧ wk.freed (Ptr.addr 7) = 1 ∧
        (wk.log.filter (fun e => e matches Event.deleted _)) =
          (w0.log.filter (fun e => e matches Event.deleted _)) ++
            [Event.deleted (Ptr.addr 7)] ∧
        ∀ j, 1 ≤ j → j ≤ 3 → ∃ wj, DestroyTimes w0 3 j = Except.ok wj ∧
          (Destroyable.IsDestroyed (wj.heap 3)).result = some true :=
  ⟨_, rfl, by decide, C1_destroy_idempotent _ 7 3 (by decide) 3 (by decide)⟩

/-! ## C2 -/

/-- C2: `FromV8Impl` returns the content of slot B when the value is an object
with exactly `kInternalFieldCount` internal fields whose slot A is the address
of `kElectronEmbedderId`; for every other value it returns null and does not
read slot B. -/
theorem C2_FromV8Impl_guarded (isolate : Isolate) (val : Value) :
    (∀ o, val = Value.object o → o.InternalFieldCount = kInternalFieldCount →
        o.fields[kWrapperType]? = some kElectronEmbedderId →
        ∃ p, o.fields[kSlot]? = some p ∧
          (internal.FromV8Impl isolate val).result = some p) ∧
    ((¬ ∃ o, val = Value.object o ∧ o.InternalFieldCount = kInternalFieldCount ∧
        o.fields[kWrapperType]? = some kElectronEmbedderId) →
      (internal.FromV8Impl isolate val).result = some Ptr.null ∧
        kSlot ∉ (internal.FromV8Impl isolate val).reads) := by
  constructor
  · rintro o rfl hc ht
    obtain ⟨fs, init⟩ := o
    simp only [Obj.InternalFieldCount, kInternalFieldCount] at hc
    match fs, hc with
    | [a, b], _ =>
      simp [kWrapperType, kElectronEmbedderId] at ht
      subst ht
      simp [internal.FromV8Impl, Obj.InternalFieldCount, kInternalFieldCount,
        Obj.GetAlignedPointerFromInternalField, Access.bind, Access.pure, kSlot,
        kWrapperType, kElectronEmbedderId]
  · intro hno
    cases val with
    | nonObject => simp [internal.FromV8Impl, Access.pure]
    | object o =>
      by_cases hc : o.InternalFieldCount = kInternalFieldCount
      · have ht : o.fields[kWrapperType]? ≠ some kElectronEmbedderId :=
          fun ht => hno ⟨o, rfl, hc, ht⟩
        obtain ⟨fs, init⟩ := o
        simp only [Obj.InternalFieldCount, kInternalFieldCount] at hc
        match fs, hc with
        | [a, b], _ =>
          have hab : ¬ kElectronEmbedderId = a := by
            intro h; apply ht; simp [kWrapperType, h]
          simp [internal.FromV8Impl, Obj.InternalFieldCount, kInternalFieldCount,
            Obj.GetAlignedPointerFromInternalField, Access.bind, Access.pure, kSlot,
            kWrapperType, hab]
      · simp [internal.FromV8Impl, hc, Access.pure]

/-- C2 at concrete inputs: a handle of this layer bound to address 7, and an
object of a foreign binding with two internal fields. -/
theorem C2_FromV8Impl_guarded_witness :
    (∃ p, (⟨[kElectronEmbedderId, Ptr.addr 7], none⟩ : Obj).fields[kSlot]? = some p ∧
        (internal.FromV8Impl 1
          (Value.object ⟨[kElectronEmbedderId, Ptr.addr 7], none⟩)).result = some p) ∧
    ((internal.FromV8Impl 1 (Value.object ⟨[Ptr.addr 99, Ptr.addr 5], none⟩)).result =
        some Ptr.null ∧
      kSlot ∉ (internal.FromV8Impl 1
        (Value.object ⟨[Ptr.addr 99, Ptr.addr 5], none⟩)).reads) :=
  ⟨(C2_FromV8Impl_guarded 1 (Value.object ⟨[kElectronEmbedderId, Ptr.addr 7], none⟩)).1
      _ rfl (by decide) (by decide),
    (C2_FromV8Impl_guarded 1 (Value.object ⟨[Ptr.addr 99, Ptr.addr 5], none⟩)).2 (by
      rintro ⟨o, ho, -, ht⟩
      cases ho
      revert ht
      decide)⟩

/-! ## C3 -/

/-- C3: the destroy callback does not check slot A. On an object with two
internal fields whose slot A holds a foreign address (not the Identity Tag) and
whose slot B holds the foreign address 5, `DestroyFunc` runs `delete` on
address 5 and overwrites slot B with null. -/
theorem C3_DestroyFunc_unchecked_cast :
    (⟨[Ptr.addr 99, Ptr.addr 5], none⟩ : Obj).fields[kWrapperType]? ≠
        some kElectronEmbedderId ∧
    (DestroyFunc (World.initial (fun _ => ⟨[Ptr.addr 99, Ptr.addr 5], none⟩)) 0).toOption.map
        (fun w => (w.freed (Ptr.addr 5), (w.heap 0).fields, w.log)) =
      some (1, [Ptr.addr 99, Ptr.null],
        [Event.deleted (Ptr.addr 5), Event.setField 0 1 Ptr.null]) := by
  decide

/-! ## C4 -/

/-- C4, counterexample: an object never bound by this layer, with a foreign
address in slot A and a non-null slot B, is reported as not destroyed. -/
theorem C4_IsDestroyed_foreign_counterexample :
    (⟨[Ptr.addr 99, Ptr.addr 5], none⟩ : Obj).fields[kWrapperType]? ≠
        some kElectronEmbedderId ∧
    (Destroyable.IsDestroyed ⟨[Ptr.addr 99, Ptr.addr 5], none⟩).result = some false := by
  decide

/-- C4, amended: `IsDestroyed` returns true for every object without internal
slots, and for every object whose slot A is not the Identity Tag provided it
has fewer than two internal slots or its slot B is null. -/
theorem C4_IsDestroyed_unbound (o : Obj)
    (ho : o.InternalFieldCount = 0 ∨
      (o.fields[kWrapperType]? ≠ some kElectronEmbedderId ∧
        (o.InternalFieldCount ≤ kSlot ∨ o.fields[kSlot]? = some Ptr.null))) :
    (Destroyable.IsDestroyed o).result = some true := by
  have key : o.InternalFieldCount ≤ kSlot ∨ o.fields[kSlot]? = some Ptr.null := by
    rcases ho with h0 | ⟨-, h1⟩
    · left; simp [h0]
    · exact h1
  by_cases hc : o.InternalFieldCount ≤ kSlot
  · simp [Destroyable.IsDestroyed, hc, Access.pure]
  · rcases key with h1 | h1
    · exact absurd h1 hc
    · simp [Destroyable.IsDestroyed, hc, Access.bind, Access.pure,
        Obj.GetAlignedPointerFromInternalField, h1]

/-- C4, amended, at concrete inputs: a foreign object whose slot B is null. -/
theorem C4_IsDestroyed_unbound_witness :
    (Destroyable.IsDestroyed ⟨[Ptr.addr 99, Ptr.null], none⟩).result = some true :=
  C4_IsDestroyed_unbound ⟨[Ptr.addr 99, Ptr.null], none⟩ (by decide)

/-! ## Facts used for binding -/

/-- `IsDestroyed` always yields a boolean: its read of slot B is in range. -/
theorem IsDestroyed_total (o : Obj) : ∃ b, (Destroyable.IsDestroyed o).result = some b := by
  by_cases hc : o.InternalFieldCount ≤ kSlot
  · exact ⟨true, by simp [Destroyable.IsDestroyed, hc, Access.pure]⟩
  · have hlt : kSlot < o.fields.length := by
      simpa [Obj.InternalFieldCount] using hc
    refine ⟨decide (o.fields[kSlot] = Ptr.null), ?_⟩
    simp [Destroyable.IsDestroyed, hc, Access.bind, Access.pure,
      Obj.GetAlignedPointerFromInternalField, List.getElem?_eq_getElem hlt]

/-- A script body that only queries `isDestroyed` leaves the state as it is. -/
theorem runScript_queries (w : World) (body : List ScriptCall)
    (hq : ∀ c ∈ body, ∃ h, c = ScriptCall.isDestroyed h) :
    runScript w body = Except.ok w := by
  induction body with
  | nil => rfl
  | cons c cs ih =>
    obtain ⟨h, rfl⟩ := hq c (List.mem_cons_self _ _)
    obtain ⟨b, hb⟩ := IsDestroyed_total (w.heap h)
    have hcs : runScript w cs = Except.ok w :=
      ih (fun c hc => hq c (List.mem_cons_of_mem _ hc))
    simp [runScript, runCall, IsDestroyedFunc, hb, hcs]

/-- What `InitWith` leaves behind when the object holds no handle, the target
has exactly two internal fields and its `_init` member, if any, makes no
`destroy` call. -/
theorem InitWith_binds (w : World) (n : Nat) (isolate : Isolate) (h : HandleId)
    (he : (w.natives n).wrapper_.IsEmpty = true)
    (hc : (w.heap h).InternalFieldCount = kInternalFieldCount)
    (hq : ∀ body, (w.heap h).init = some body →
      ∀ c ∈ body, ∃ h1, c = ScriptCall.isDestroyed h1) :
    ∃ w1, WrappableBase.InitWith w n isolate h = Except.ok w1 ∧
      (w1.heap h).fields = [kElectronEmbedderId, Ptr.addr n] ∧
      (w1.natives n).wrapper_ = ⟨some h, some (Ptr.addr n)⟩ ∧
      (w1.natives n).isolate_ = isolate ∧
      w1.freed = w.freed ∧ w1.pending = w.pending := by
  have hlen : (w.heap h).fields.length = 2 := by
    simpa [Obj.InternalFieldCount, kInternalFieldCount] using hc
  match hfs : (w.heap h).fields, hlen with
  | [a, b], _ =>
    cases hi : (w.heap h).init with
    | none =>
      simp [WrappableBase.InitWith, he, World.setIsolate,
        World.SetAlignedPointerInInternalField, Obj.InternalFieldCount, hfs,
        kWrapperType, kSlot, World.ResetTo, World.SetWeak, World.setWrapper, hi,
        WrappableBase.AfterInit]
    | some body =>
      simp [WrappableBase.InitWith, he, World.setIsolate,
        World.SetAlignedPointerInInternalField, Obj.InternalFieldCount, hfs,
        kWrapperType, kSlot, World.ResetTo, World.SetWeak, World.setWrapper, hi,
        WrappableBase.AfterInit, runScript_queries _ body (hq body hi)]

/-- A live native object with an empty handle reference is bound by `InitWith`
to a two-slot handle whose `_init`, if any, makes no `destroy` call. -/
theorem InitWith_Bound (w : World) (n : Nat) (isolate : Isolate) (h : HandleId)
    (he : (w.natives n).wrapper_.IsEmpty = true)
    (hc : (w.heap h).InternalFieldCount = kInternalFieldCount)
    (hq : ∀ body, (w.heap h).init = some body →
      ∀ c ∈ body, ∃ h1, c = ScriptCall.isDestroyed h1)
    (hlive : w.freed (Ptr.addr n) = 0) :
    ∃ w1, WrappableBase.InitWith w n isolate h = Except.ok w1 ∧ Bound w1 n h := by
  obtain ⟨w1, hok, hf, hw, -, hfr, -⟩ := InitWith_binds w n isolate h he hc hq
  exact ⟨w1, hok, hf, hw, by rw [hfr]; exact hlive⟩

/-! ## C5 -/

/-- C5: the handle 3 has two internal fields and an `_init` member that calls
`destroy` on the handle itself. Inside `InitWith` the script call deletes the
native object 7 and nulls slot B; `InitWith` then calls `AfterInit` on the
object it has just deleted (the `afterInit 7` event follows `deleted 7`), and
when it returns slot B of the handle is null, the object holds no handle,
`IsDestroyed` is true and `FromV8Impl` returns null. -/
theorem C5_init_destroys_before_AfterInit :
    (WrappableBase.InitWith
        (World.initial (fun _ => ⟨[Ptr.null, Ptr.null], some [ScriptCall.destroy 3]⟩))
        7 1 3).toOption.map
      (fun w => (w.log, (w.heap 3).fields, (w.natives 7).wrapper_,
        (Destroyable.IsDestroyed (w.heap 3)).result,
        (internal.FromV8Impl 1 (Value.object (w.heap 3))).result, w.freed (Ptr.addr 7))) =
    some ([Event.setField 3 kWrapperType kElectronEmbedderId,
        Event.setField 3 kSlot (Ptr.addr 7), Event.globalReset 7 (some 3), Event.setWeak 7,
        Event.call 3 0,
        Event.setField 3 kSlot Ptr.null, Event.clearWeak 7, Event.globalReset 7 none,
        Event.deleted (Ptr.addr 7), Event.setField 3 kSlot Ptr.null,
        Event.afterInit 7],
      [kElectronEmbedderId, Ptr.null], ⟨none, none⟩, some true, some Ptr.null, 1) := by
  rfl

/-- What `InitWith` establishes when the object holds no handle, the target has
exactly two internal fields and its `_init` member, if any, makes no `destroy`
call: the tag in slot A, the address of the object in slot B, a weak handle
reference to the target, `IsDestroyed` false and `FromV8Impl` the object. -/
theorem InitWith_postcondition (w : World) (n : Nat) (isolate : Isolate) (h : HandleId)
    (he : (w.natives n).wrapper_.IsEmpty = true)
    (hc : (w.heap h).InternalFieldCount = kInternalFieldCount)
    (hq : ∀ body, (w.heap h).init = some body →
      ∀ c ∈ body, ∃ h1, c = ScriptCall.isDestroyed h1) :
    ∃ w1, WrappableBase.InitWith w n isolate h = Except.ok w1 ∧
      (w1.heap h).InternalFieldCount = kInternalFieldCount ∧
      (w1.heap h).fields[kWrapperType]? = some kElectronEmbedderId ∧
      (w1.heap h).fields[kSlot]? = some (Ptr.addr n) ∧
      (w1.natives n).GetWrapper = some h ∧
      (w1.natives n).wrapper_.weak = some (Ptr.addr n) ∧
      (Destroyable.IsDestroyed (w1.heap h)).result = some false ∧
      (internal.FromV8Impl isolate (Value.object (w1.heap h))).result =
        some (Ptr.addr n) := by
  obtain ⟨w1, hok, hf, hw, -, -, -⟩ := InitWith_binds w n isolate h he hc hq
  refine ⟨w1, hok, ?_, ?_, ?_, ?_, ?_, ?_, ?_⟩
  · simp [Obj.InternalFieldCount, kInternalFieldCount, hf]
  · simp [hf, kWrapperType]
  · simp [hf, kSlot]
  · simp [WrappableBase.GetWrapper, Global.IsEmpty, hw]
  · simp [hw]
  · simp [Destroyable.IsDestroyed, Obj.InternalFieldCount,
      Obj.GetAlignedPointerFromInternalField, Access.bind, Access.pure, kSlot, hf]
  · simp [internal.FromV8Impl, Obj.InternalFieldCount, kInternalFieldCount,
      Obj.GetAlignedPointerFromInternalField, Access.bind, Access.pure, kSlot,
      kWrapperType, hf]

/-! ## Faults -/

/-- Writing an internal field never fails a `CHECK`. -/
theorem SetAlignedPointerInInternalField_no_check (w w1 : World) (h : HandleId) (i : Nat)
    (p : Ptr) : w.SetAlignedPointerInInternalField h i p ≠ Except.error (Fault.check w1) := by
  unfold World.SetAlignedPointerInInternalField
  split <;> simp

/-- The destructor never fails a `CHECK`. -/
theorem Destructor_no_check (w w1 : World) (n : Nat) :
    WrappableBase.Destructor w n ≠ Except.error (Fault.check w1) := by
  unfold WrappableBase.Destructor
  split
  · simp
  · split
    · simp
    · rename_i h _
      have := SetAlignedPointerInInternalField_no_check w w1 h kSlot Ptr.null
      split
      · rename_i e he
        intro heq
        simp only [Except.error.injEq] at heq
        subst heq
        exact this he
      · simp

/-- A `delete` never fails a `CHECK`. -/
theorem delete_no_check (w w1 : World) (p : Ptr) :
    w.delete p ≠ Except.error (Fault.check w1) := by
  cases p with
  | null => simp [World.delete]
  | embedderId => simp [World.delete]
  | addr a =>
    simp only [World.delete]
    split
    · rename_i e he
      intro heq
      simp only [Except.error.injEq] at heq
      subst heq
      exact Destructor_no_check w w1 a he
    · simp

/-- The destroy callback never fails a `CHECK`. -/
theorem DestroyFunc_no_check (w w1 : World) (h : HandleId) :
    DestroyFunc w h ≠ Except.error (Fault.check w1) := by
  unfold DestroyFunc
  split
  · simp
  · simp
  · split
    · simp
    · rename_i p _
      split
      · rename_i e he
        intro heq
        simp only [Except.error.injEq] at heq
        subst heq
        exact delete_no_check w w1 p he
      · exact SetAlignedPointerInInternalField_no_check _ _ _ _ _

/-- Script code never fails a `CHECK`. -/
theorem runScript_no_check (body : List ScriptCall) (w w1 : World) :
    runScript w body ≠ Except.error (Fault.check w1) := by
  induction body generalizing w with
  | nil => simp [runScript]
  | cons c cs ih =>
    simp only [runScript]
    split
    · rename_i e he
      intro heq
      simp only [Except.error.injEq] at heq
      subst heq
      cases c with
      | destroy h => exact DestroyFunc_no_check w w1 h he
      | isDestroyed h =>
        simp only [runCall] at he
        split at he <;> simp at he
    · exact ih _

/-- With an empty handle reference, `InitWith` does not fail its `CHECK`. -/
theorem InitWith_no_check_of_empty (w w1 : World) (n : Nat) (isolate : Isolate)
    (h : HandleId) (he : (w.natives n).wrapper_.IsEmpty = true) :
    WrappableBase.InitWith w n isolate h ≠ Except.error (Fault.check w1) := by
  unfold WrappableBase.InitWith
  simp only [he, Bool.not_true, Bool.false_eq_true, if_false]
  split
  · rename_i e he1
    intro heq
    simp only [Except.error.injEq] at heq
    subst heq
    exact SetAlignedPointerInInternalField_no_check _ _ _ _ _ he1
  · split
    · rename_i e he2
      intro heq
      simp only [Except.error.injEq] at heq
      subst heq
      exact SetAlignedPointerInInternalField_no_check _ _ _ _ _ he2
    · split
      · rename_i e he3
        intro heq
        simp only [Except.error.injEq] at heq
        subst heq
        split at he3
        · exact runScript_no_check _ _ _ he3
        · simp at he3
      · simp

/-! ## C6 -/

/-- C6: `InitWith` fails its `CHECK` if and only if the handle reference of the
native object is non-empty at the call, and the state in which the process then
aborts is the state of the call: no slot of the target handle written, the
stored engine instance, the previously bound handle and its weak registration
untouched. -/
theorem C6_double_bind_fatal (w : World) (n : Nat) (isolate : Isolate) (h : HandleId) :
    ((∃ w1, WrappableBase.InitWith w n isolate h = Except.error (Fault.check w1)) ↔
        (w.natives n).wrapper_.IsEmpty = false) ∧
    (∀ w1, WrappableBase.InitWith w n isolate h = Except.error (Fault.check w1) →
        w1 = w) := by
  cases he : (w.natives n).wrapper_.IsEmpty with
  | true =>
    refine ⟨⟨?_, by simp⟩, ?_⟩
    · rintro ⟨w1, h1⟩
      exact absurd h1 (InitWith_no_check_of_empty w w1 n isolate h he)
    · intro w1 h1
      exact absurd h1 (InitWith_no_check_of_empty w w1 n isolate h he)
  | false =>
    have hrun : WrappableBase.InitWith w n isolate h = Except.error (Fault.check w) := by
      simp [WrappableBase.InitWith, he]
    refine ⟨⟨fun _ => rfl, fun _ => ⟨w, hrun⟩⟩, ?_⟩
    intro w1 h1
    rw [hrun] at h1
    simp only [Except.error.injEq, Fault.check.injEq] at h1
    exact h1.symm

/-- C6 at concrete inputs: object 7 is bound to handle 3 and `InitWith` is run on
it again with handle 4. -/
theorem C6_double_bind_fatal_witness :
    ∃ w0, WrappableBase.InitWith (World.initial freshHeap) 7 1 3 = Except.ok w0 ∧
      (∃ w1, WrappableBase.InitWith w0 7 2 4 = Except.error (Fault.check w1)) ∧
      (∀ w1, WrappableBase.InitWith w0 7 2 4 = Except.error (Fault.check w1) → w1 = w0) :=
  ⟨_, rfl, (C6_double_bind_fatal _ 7 2 4).1.2 (by decide),
    (C6_double_bind_fatal _ 7 2 4).2⟩

/-! ## C7 -/

/-- C7: the run bind, first pass, direct deletion by the owner, second pass.
After the first pass the object 7 has not been deallocated, so its owner may
still delete it; the scheduled second pass then runs `delete` on the same
address again: two deallocations of one object. -/
theorem C7_double_free_between_passes :
    (exec (World.initial freshHeap) [Step.bind 7 1 3, Step.firstPass 7]).map
        (fun w => (w.freed (Ptr.addr 7), w.pending)) =
      some (0, [⟨Ptr.addr 7, [kElectronEmbedderId, Ptr.addr 7]⟩]) ∧
    (exec (World.initial freshHeap)
        [Step.bind 7 1 3, Step.firstPass 7, Step.ownerDelete 7, Step.secondPass]).map
        (fun w => (w.freed (Ptr.addr 7),
          w.log.filter (fun e => e matches Event.deleted _))) =
      some (2, [Event.deleted (Ptr.addr 7), Event.deleted (Ptr.addr 7)]) := by
  decide

/-! ## C8 -/

/-- C8: for a native object `n` bound to `h`, `FirstWeakCallback` on the fields
captured from `h` deallocates nothing (every deallocation count is unchanged,
that of `n` is 0, no `deleted` event is logged); it empties the handle
reference of `n` and schedules the second pass. `SecondWeakCallback` on the
same data then returns and deletes `n`: its count is 1 and the one event it
logs is that deletion. -/
theorem C8_two_phase_finalization (w : World) (n : Nat) (h : HandleId)
    (parameter : Ptr) (hb : Bound w n h) :
    let data : WeakCallbackInfo := ⟨parameter, (w.heap h).fields⟩
    let w1 := WrappableBase.FirstWeakCallback w data
    w1.freed = w.freed ∧ w1.freed (Ptr.addr n) = 0 ∧
    w1.log = w.log ++ [Event.globalReset n none, Event.secondPass (Ptr.addr n)] ∧
    (w1.natives n).wrapper_.IsEmpty = true ∧
    w1.pending = w.pending ++ [data] ∧
    ∃ w2, WrappableBase.SecondWeakCallback w1 data = Except.ok w2 ∧
      w2.freed (Ptr.addr n) = 1 ∧
      w2.log = w1.log ++ [Event.deleted (Ptr.addr n)] := by
  obtain ⟨hf, hw, hz⟩ := hb
  simp [WrappableBase.FirstWeakCallback, WeakCallbackInfo.GetInternalField, hf, kSlot,
    World.Reset, World.setWrapper, Global.IsEmpty, hz, WrappableBase.SecondWeakCallback,
    World.delete, WrappableBase.Destructor]

/-- C8 at concrete inputs: object 7 bound to handle 3, with the collector
running both passes after the bind. -/
theorem C8_two_phase_finalization_witness :
    ∃ w0, WrappableBase.InitWith (World.initial freshHeap) 7 1 3 = Except.ok w0 ∧
      Bound w0 7 3 ∧
      (exec (World.initial freshHeap) [Step.bind 7 1 3, Step.firstPass 7]).map
        (fun w => w.freed (Ptr.addr 7)) = some 0 ∧
      (exec (World.initial freshHeap)
        [Step.bind 7 1 3, Step.firstPass 7, Step.secondPass]).map
        (fun w => w.freed (Ptr.addr 7)) = some 1 ∧
      (let data : WeakCallbackInfo := ⟨Ptr.addr 7, (w0.heap 3).fields⟩
       let w1 := WrappableBase.FirstWeakCallback w0 data
       w1.freed = w0.freed ∧ w1.freed (Ptr.addr 7) = 0 ∧
       w1.log = w0.log ++ [Event.globalReset 7 none, Event.secondPass (Ptr.addr 7)] ∧
       (w1.natives 7).wrapper_.IsEmpty = true ∧
       w1.pending = w0.pending ++ [data] ∧
       ∃ w2, WrappableBase.SecondWeakCallback w1 data = Except.ok w2 ∧
         w2.freed (Ptr.addr 7) = 1 ∧
         w2.log = w1.log ++ [Event.deleted (Ptr.addr 7)]) :=
  ⟨_, rfl, by decide, by decide, by decide,
    C8_two_phase_finalization _ 7 3 (Ptr.addr 7) (by decide)⟩

/-! ## C9 -/

/-- C9: for a native object `n` bound to `h`, the destroy callback on `h`
returns and leaves slot B of `h` null with `n` deleted once; a later
`FirstWeakCallback` on the fields of `h` returns the state unchanged, so no
second pass is scheduled and the deallocation count of `n` stays 1. The weak
registration is gone as well, so the collector has no first pass to run for
`n`. -/
theorem C9_destroy_then_collect (w : World) (n : Nat) (h : HandleId) (parameter : Ptr)
    (hb : Bound w n h) :
    ∃ w1, DestroyFunc w h = Except.ok w1 ∧
      (w1.heap h).fields[kSlot]? = some Ptr.null ∧
      w1.freed (Ptr.addr n) = 1 ∧
      WrappableBase.FirstWeakCallback w1 ⟨parameter, (w1.heap h).fields⟩ = w1 ∧
      (WrappableBase.FirstWeakCallback w1 ⟨parameter, (w1.heap h).fields⟩).pending =
        w.pending ∧
      (WrappableBase.FirstWeakCallback w1 ⟨parameter, (w1.heap h).fields⟩).freed
        (Ptr.addr n) = 1 ∧
      collectFirstPass w1 n = none := by
  obtain ⟨w1, h1, hfreed, hfields, hwr, hpend, -⟩ := DestroyFunc_of_Bound w n h hb
  have hcb : WrappableBase.FirstWeakCallback w1 ⟨parameter, (w1.heap h).fields⟩ = w1 := by
    simp [WrappableBase.FirstWeakCallback, WeakCallbackInfo.GetInternalField, hfields, kSlot]
  refine ⟨w1, h1, by simp [hfields, kSlot], hfreed, hcb, ?_, ?_, ?_⟩
  · rw [hcb]; exact hpend
  · rw [hcb]; exact hfreed
  · simp [collectFirstPass, hwr]

/-- C9 at concrete inputs: object 7 bound to handle 3, destroyed by script. -/
theorem C9_destroy_then_collect_witness :
    ∃ w0, WrappableBase.InitWith (World.initial freshHeap) 7 1 3 = Except.ok w0 ∧
      Bound w0 7 3 ∧
      ∃ w1, DestroyFunc w0 3 = Except.ok w1 ∧
        (w1.heap 3).fields[kSlot]? = some Ptr.null ∧
        w1.freed (Ptr.addr 7) = 1 ∧
        WrappableBase.FirstWeakCallback w1 ⟨Ptr.addr 7, (w1.heap 3).fields⟩ = w1 ∧
        (WrappableBase.FirstWeakCallback w1 ⟨Ptr.addr 7, (w1.heap 3).fields⟩).pending =
          w0.pending ∧
        (WrappableBase.FirstWeakCallback w1 ⟨Ptr.addr 7, (w1.heap 3).fields⟩).freed
          (Ptr.addr 7) = 1 ∧
        collectFirstPass w1 7 = none :=
  ⟨_, rfl, by decide, C9_destroy_then_collect _ 7 3 (Ptr.addr 7) (by decide)⟩

/-! ## Preservation of the slot invariant -/

/-- What a successful write of an internal field changes. -/
theorem SetAlignedPointerInInternalField_spec (w w1 : World) (h : HandleId) (i : Nat)
    (p : Ptr) (hok : w.SetAlignedPointerInInternalField h i p = Except.ok w1) :
    w1.natives = w.natives ∧ w1.freed = w.freed ∧ w1.pending = w.pending ∧
      w1.collected = w.collected ∧
      (w1.heap h).fields = (w.heap h).fields.set i p ∧
      (w1.heap h).init = (w.heap h).init ∧
      (∀ h1, h1 ≠ h → w1.heap h1 = w.heap h1) := by
  unfold World.SetAlignedPointerInInternalField at hok
  split at hok
  · simp only [Except.ok.injEq] at hok
    subst hok
    refine ⟨rfl, rfl, rfl, rfl, by simp, by simp, ?_⟩
    intro h1 hne
    simp [setAt, hne]
  · simp at hok

/-- What the destructor changes: the object ends with an empty handle
reference, other objects are untouched, and only the handle the object
referred to is written. -/
theorem Destructor_spec (w w1 : World) (a : Nat)
    (hok : WrappableBase.Destructor w a = Except.ok w1) :
    (w1.natives a).wrapper_.target = none ∧
      (∀ n, n ≠ a → w1.natives n = w.natives n) ∧
      (∀ h, (w.natives a).wrapper_.target ≠ some h → w1.heap h = w.heap h) ∧
      w1.freed = w.freed ∧ w1.pending = w.pending ∧ w1.collected = w.collected ∧
      (∀ h, (w.natives a).wrapper_.target = some h →
        (w1.heap h).fields = (w.heap h).fields.set kSlot Ptr.null) := by
  cases ht : (w.natives a).wrapper_.target with
  | none =>
    simp [WrappableBase.Destructor, Global.IsEmpty, ht] at hok
    subst hok
    simp [ht]
  | some h =>
    simp only [WrappableBase.Destructor, Global.IsEmpty, ht, WrappableBase.GetWrapper,
      Option.isNone_some, Bool.false_eq_true, if_false, Bool.not_false, if_true] at hok
    split at hok
    · simp at hok
    · rename_i w2 h2
      simp only [Except.ok.injEq] at hok
      subst hok
      obtain ⟨hn, hfr, hp, hcol, hset, -, hother⟩ :=
        SetAlignedPointerInInternalField_spec w w2 h kSlot Ptr.null h2
      refine ⟨by simp [World.Reset, World.ClearWeak, World.setWrapper], ?_, ?_, ?_, ?_, ?_, ?_⟩
      rotate_right
      · intro h1 h1h
        simp only [Option.some.injEq] at h1h
        subst h1h
        simpa [World.Reset, World.ClearWeak, World.setWrapper] using hset
      · intro n hne
        simp [World.Reset, World.ClearWeak, World.setWrapper, setAt, hne, hn]
      · intro h1 hne
        have : h1 ≠ h := fun e => hne (by rw [e])
        simpa [World.Reset, World.ClearWeak, World.setWrapper] using hother h1 this
      · simpa [World.Reset, World.ClearWeak, World.setWrapper] using hfr
      · simpa [World.Reset, World.ClearWeak, World.setWrapper] using hp
      · simpa [World.Reset, World.ClearWeak, World.setWrapper] using hcol

/-- What a `delete` changes, beyond the deallocation count and the log. -/
theorem delete_spec (w w1 : World) (a : Nat)
    (hok : w.delete (Ptr.addr a) = Except.ok w1) :
    (w1.natives a).wrapper_.target = none ∧
      (∀ n, n ≠ a → w1.natives n = w.natives n) ∧
      (∀ h, (w.natives a).wrapper_.target ≠ some h → w1.heap h = w.heap h) ∧
      w1.freed (Ptr.addr a) = w.freed (Ptr.addr a) + 1 ∧
      (∀ p, p ≠ Ptr.addr a → w1.freed p = w.freed p) ∧
      w1.collected = w.collected ∧
      (∀ h, (w.natives a).wrapper_.target = some h →
        (w1.heap h).fields = (w.heap h).fields.set kSlot Ptr.null) := by
  simp only [World.delete] at hok
  split at hok
  · simp at hok
  · rename_i w2 h2
    simp only [Except.ok.injEq] at hok
    subst hok
    obtain ⟨ht, hn, hh, hfr, -, hcol, hset⟩ := Destructor_spec w w2 a h2
    refine ⟨ht, hn, hh, by simp [hfr], ?_, hcol, hset⟩
    intro p hp
    simp [setAt, hp, hfr]

/-- A `delete` preserves the slot invariant. -/
theorem SlotInv_delete (w w1 : World) (p : Ptr) (hi : SlotInv w)
    (hok : w.delete p = Except.ok w1) : SlotInv w1 := by
  cases p with
  | null =>
    simp [World.delete] at hok
    subst hok
    exact hi
  | embedderId =>
    simp [World.delete] at hok
    subst hok
    exact hi
  | addr a =>
    obtain ⟨ht, hn, hh, -, -, -, -⟩ := delete_spec w w1 a hok
    intro n h hnh
    have hna : n ≠ a := by
      rintro rfl
      rw [ht] at hnh
      exact absurd hnh (by simp)
    rw [hn n hna] at hnh
    have hah : (w.natives a).wrapper_.target ≠ some h := by
      intro hah
      have h1 := hi a h hah
      have h2 := hi n h hnh
      rw [h1] at h2
      simp only [Option.some.injEq, Ptr.addr.injEq] at h2
      exact hna h2.symm
    rw [hh h hah]
    exact hi n h hnh

/-- The destroy callback preserves the slot invariant. -/
theorem SlotInv_DestroyFunc (w w1 : World) (holder : HandleId) (hi : SlotInv w)
    (hok : DestroyFunc w holder = Except.ok w1) : SlotInv w1 := by
  unfold DestroyFunc at hok
  split at hok
  · simp at hok
  · simp only [Except.ok.injEq] at hok
    subst hok
    exact hi
  · split at hok
    · simp at hok
    · rename_i p hp
      simp only [Obj.GetAlignedPointerFromInternalField] at hp
      split at hok
      · simp at hok
      · rename_i w2 h2
        have hi2 : SlotInv w2 := SlotInv_delete w w2 p hi h2
        obtain ⟨hn, -, -, -, -, -, hother⟩ :=
          SetAlignedPointerInInternalField_spec w2 w1 holder kSlot Ptr.null hok
        intro n h hnh
        rw [hn] at hnh
        by_cases hh : h = holder
        · subst hh
          exfalso
          cases p with
          | null =>
            simp [World.delete] at h2
            subst h2
            have := hi n h hnh
            rw [hp] at this
            simp at this
          | embedderId =>
            simp [World.delete] at h2
            subst h2
            have := hi n h hnh
            rw [hp] at this
            simp at this
          | addr a =>
            obtain ⟨ht, hnat, -, -, -, -, -⟩ := delete_spec w w2 a h2
            have hna : n ≠ a := by
              rintro rfl
              rw [ht] at hnh
              exact absurd hnh (by simp)
            rw [hnat n hna] at hnh
            have := hi n h hnh
            rw [hp] at this
            simp only [Option.some.injEq, Ptr.addr.injEq] at this
            exact hna this.symm
        · rw [hother h hh]
          exact hi2 n h hnh

/-- Script code preserves the slot invariant. -/
theorem SlotInv_runScript (body : List ScriptCall) (w w1 : World) (hi : SlotInv w)
    (hok : runScript w body = Except.ok w1) : SlotInv w1 := by
  induction body generalizing w with
  | nil =>
    simp [runScript] at hok
    subst hok
    exact hi
  | cons c cs ih =>
    simp only [runScript] at hok
    split at hok
    · simp at hok
    · rename_i w2 h2
      refine ih w2 ?_ hok
      cases c with
      | destroy h => exact SlotInv_DestroyFunc w w2 h hi h2
      | isDestroyed h =>
        simp only [runCall] at h2
        split at h2
        · simp at h2
        · simp only [Except.ok.injEq] at h2
          subst h2
          exact hi

/-- The first weak callback preserves the slot invariant. -/
theorem SlotInv_FirstWeakCallback (w : World) (data : WeakCallbackInfo) (hi : SlotInv w) :
    SlotInv (WrappableBase.FirstWeakCallback w data) := by
  unfold WrappableBase.FirstWeakCallback
  simp only
  split
  · cases hd : data.GetInternalField kSlot with
    | null => exact hi
    | embedderId => exact hi
    | addr a =>
      intro n h hnh
      by_cases hna : n = a
      · subst hna
        simp [World.Reset, World.setWrapper] at hnh
      · have : (w.natives n).wrapper_.target = some h := by
          simpa [World.Reset, World.setWrapper, setAt, hna] using hnh
        simpa [World.Reset, World.setWrapper] using hi n h this
  · exact hi

/-- Binding a handle that carries no binding preserves the slot invariant. -/
theorem SlotInv_InitWith (w w1 : World) (n : Nat) (isolate : Isolate) (h : HandleId)
    (hi : SlotInv w) (hnull : (w.heap h).fields[kSlot]? = some Ptr.null)
    (hok : WrappableBase.InitWith w n isolate h = Except.ok w1) : SlotInv w1 := by
  unfold WrappableBase.InitWith at hok
  split at hok
  · simp at hok
  · simp only at hok
    split at hok
    · simp at hok
    · rename_i wa ha
      split at hok
      · simp at hok
      · rename_i wb hb
        obtain ⟨han, -, -, -, haf, hai, hao⟩ :=
          SetAlignedPointerInInternalField_spec _ wa h kWrapperType kElectronEmbedderId ha
        obtain ⟨hbn, -, -, -, hbf, hbi, hbo⟩ :=
          SetAlignedPointerInInternalField_spec wa wb h kSlot (Ptr.addr n) hb
        have hlen : kSlot < (wa.heap h).fields.length := by
          unfold World.SetAlignedPointerInInternalField at hb
          split at hb
          · assumption
          · simp at hb
        have hi3 : SlotInv ((wb.ResetTo n h).SetWeak n (Ptr.addr n)) := by
          intro m h1 hm
          by_cases hmn : m = n
          · subst hmn
            have : h1 = h := by
              simpa [World.SetWeak, World.ResetTo, World.setWrapper] using hm.symm
            subst this
            simp [World.SetWeak, World.ResetTo, World.setWrapper, hbf, hlen]
          · have hm1 : (w.natives m).wrapper_.target = some h1 := by
              simpa [World.SetWeak, World.ResetTo, World.setWrapper, setAt, hmn, hbn, han,
                World.setIsolate] using hm
            have h1h : h1 ≠ h := by
              rintro rfl
              have := hi m h1 hm1
              rw [hnull] at this
              simp at this
            have : (wb.heap h1) = w.heap h1 := by
              rw [hbo h1 h1h, hao h1 h1h]
              simp [World.setIsolate]
            simpa [World.SetWeak, World.ResetTo, World.setWrapper, this] using hi m h1 hm1
        split at hok
        · simp at hok
        · rename_i wc hc
          simp only [Except.ok.injEq] at hok
          subst hok
          have hic : SlotInv wc := by
            split at hc
            · rename_i body _
              refine SlotInv_runScript body _ wc ?_ hc
              exact hi3
            · simp only [Except.ok.injEq] at hc
              subst hc
              exact hi3
          exact hic

/-- Every enabled step preserves the slot invariant. -/
theorem SlotInv_step (w w1 : World) (s : Step) (hi : SlotInv w)
    (hu : s.bindsUnbound w = true) (hok : step w s = some w1) : SlotInv w1 := by
  cases s with
  | bind n isolate h =>
    have hnull : (w.heap h).fields[kSlot]? = some Ptr.null := by
      simpa [Step.bindsUnbound] using hu
    simp only [step] at hok
    split at hok
    · cases hr : WrappableBase.InitWith w n isolate h with
      | error e => simp [hr, Except.toOption] at hok
      | ok w2 =>
        simp [hr, Except.toOption] at hok
        subst hok
        exact SlotInv_InitWith w w2 n isolate h hi hnull hr
    · simp at hok
  | destroy h =>
    simp only [step] at hok
    split at hok
    · cases hr : DestroyFunc w h with
      | error e => simp [hr, Except.toOption] at hok
      | ok w2 =>
        simp [hr, Except.toOption] at hok
        subst hok
        exact SlotInv_DestroyFunc w w2 h hi hr
    · simp at hok
  | ownerDelete n =>
    simp only [step] at hok
    split at hok
    · cases hr : w.delete (Ptr.addr n) with
      | error e => simp [hr, Except.toOption] at hok
      | ok w2 =>
        simp [hr, Except.toOption] at hok
        subst hok
        exact SlotInv_delete w w2 _ hi hr
    · simp at hok
  | firstPass n =>
    simp only [step, collectFirstPass] at hok
    split at hok
    · simp only [Option.some.injEq] at hok
      subst hok
      exact SlotInv_FirstWeakCallback _ _ hi
    · simp at hok
  | secondPass =>
    simp only [step, collectSecondPass] at hok
    split at hok
    · simp at hok
    · rename_i data rest hp
      split at hok
      · simp at hok
      · rename_i w2 h2
        simp only [Option.some.injEq] at hok
        subst hok
        unfold WrappableBase.SecondWeakCallback at h2
        exact SlotInv_delete { w with pending := rest } w2 _ (fun n h hnh => hi n h hnh) h2

/-- Every run whose binds target handles that carry no binding preserves the
slot invariant. -/
theorem SlotInv_exec (steps : List Step) (w w1 : World) (hi : SlotInv w)
    (hok : execOnce w steps = some w1) : SlotInv w1 := by
  induction steps generalizing w with
  | nil =>
    simp [execOnce] at hok
    subst hok
    exact hi
  | cons s rest ih =>
    simp only [execOnce] at hok
    split at hok
    · rename_i hu
      split at hok
      · simp at hok
      · rename_i w2 h2
        exact ih w2 (SlotInv_step w w2 s hi hu h2) hok
    · simp at hok

/-- The captured slot B is the slot B of the handle. -/
theorem GetInternalField_of_fields (parameter p : Ptr) (fields : List Ptr)
    (hs : fields[kSlot]? = some p) :
    (⟨parameter, fields⟩ : WeakCallbackInfo).GetInternalField kSlot = p := by
  simp [WeakCallbackInfo.GetInternalField, List.getD_eq_getElem?_getD, hs]

/-- The first weak callback on a captured native address: the handle reference
of that object is reset and the second pass is scheduled. -/
theorem FirstWeakCallback_addr (w : World) (data : WeakCallbackInfo) (a : Nat)
    (hd : data.GetInternalField kSlot = Ptr.addr a) :
    WrappableBase.FirstWeakCallback w data =
      { w.Reset a with
        pending := w.pending ++ [data]
        log := (w.Reset a).log ++ [Event.secondPass (Ptr.addr a)] } := by
  simp [WrappableBase.FirstWeakCallback, hd, World.Reset, World.setWrapper]

/-- A run whose binds target handles that carry no binding is a run. -/
theorem exec_of_execOnce (steps : List Step) (w w1 : World)
    (hok : execOnce w steps = some w1) : exec w steps = some w1 := by
  induction steps generalizing w with
  | nil => simpa [execOnce, exec] using hok
  | cons s rest ih =>
    simp only [execOnce] at hok
    split at hok
    · split at hok
      · simp at hok
      · rename_i w2 h2
        simp only [exec, h2]
        exact ih w2 hok
    · simp at hok

/-! ## C10 -/

/-- C12: for every script object `o`, `IsDestroyed(o)` yields a boolean, and that
boolean is true exactly when `InternalFieldCount <= kSlot` or slot B of `o` is
null. The only internal field it ever reads is slot B, and it reads it only when
the field count exceeds `kSlot`, so every read is in range. The script-visible
query built on it hands back that boolean and leaves the state as it was. -/
theorem C12_IsDestroyed_total (w : World) (holder : HandleId) (o : Obj) :
    (Destroyable.IsDestroyed o).result =
        some (decide (o.InternalFieldCount ≤ kSlot ∨ o.fields[kSlot]? = some Ptr.null)) ∧
    (∀ i ∈ (Destroyable.IsDestroyed o).reads, i = kSlot ∧ i < o.InternalFieldCount) ∧
    ((Destroyable.IsDestroyed o).reads = [] ∨
      ((Destroyable.IsDestroyed o).reads = [kSlot] ∧ kSlot < o.InternalFieldCount)) ∧
    IsDestroyedFunc w holder = (Destroyable.IsDestroyed (w.heap holder)).result ∧
    runCall w (ScriptCall.isDestroyed holder) = Except.ok w := by
  have hcall : runCall w (ScriptCall.isDestroyed holder) = Except.ok w := by
    obtain ⟨b, hb⟩ := IsDestroyed_total (w.heap holder)
    simp [runCall, IsDestroyedFunc, hb]
  by_cases hc : o.InternalFieldCount ≤ kSlot
  · refine ⟨?_, ?_, ?_, rfl, hcall⟩
    · simp [Destroyable.IsDestroyed, hc, Access.pure]
    · simp [Destroyable.IsDestroyed, hc, Access.pure]
    · left
      simp [Destroyable.IsDestroyed, hc, Access.pure]
  · have hlt : kSlot < o.fields.length := by
      simpa [Obj.InternalFieldCount] using hc
    have hlt2 : kSlot < o.InternalFieldCount := by
      simpa [Obj.InternalFieldCount] using hlt
    refine ⟨?_, ?_, ?_, rfl, hcall⟩
    · simp [Destroyable.IsDestroyed, hc, Access.bind, Access.pure,
        Obj.GetAlignedPointerFromInternalField, List.getElem?_eq_getElem hlt]
    · intro i hi
      have : i = kSlot := by
        simpa [Destroyable.IsDestroyed, hc, Access.bind, Access.pure,
          Obj.GetAlignedPointerFromInternalField, List.getElem?_eq_getElem hlt] using hi
      subst this
      exact ⟨rfl, hlt2⟩
    · right
      refine ⟨?_, hlt2⟩
      simp [Destroyable.IsDestroyed, hc, Access.bind, Access.pure,
        Obj.GetAlignedPointerFromInternalField, List.getElem?_eq_getElem hlt]

/-! ## C13 -/

/-- C13: on an object with exactly two internal fields and the Identity Tag in
slot A, `FromV8Impl` returns null exactly when `IsDestroyed` returns true; for
any value, a non-null result of `FromV8Impl` means the value is an object on
which `IsDestroyed` returns false; and for a native object `n` bound to `h`,
after the destroy callback on `h` has returned, `FromV8Impl(h)` is null and
`IsDestroyed(h)` is true. -/
theorem C13_lookup_agrees_with_IsDestroyed (isolate : Isolate) :
    (∀ o : Obj, o.InternalFieldCount = kInternalFieldCount →
        o.fields[kWrapperType]? = some kElectronEmbedderId →
        ((internal.FromV8Impl isolate (Value.object o)).result = some Ptr.null ↔
          (Destroyable.IsDestroyed o).result = some true)) ∧
    (∀ (val : Value) (p : Ptr), (internal.FromV8Impl isolate val).result = some p →
        p ≠ Ptr.null →
        ∃ o, val = Value.object o ∧ (Destroyable.IsDestroyed o).result = some false) ∧
    (∀ (w : World) (n : Nat) (h : HandleId), Bound w n h →
        ∃ w1, DestroyFunc w h = Except.ok w1 ∧
          (internal.FromV8Impl isolate (Value.object (w1.heap h))).result = some Ptr.null ∧
          (Destroyable.IsDestroyed (w1.heap h)).result = some true) := by
  refine ⟨?_, ?_, ?_⟩
  · intro o hc ht
    obtain ⟨fs, init⟩ := o
    simp only [Obj.InternalFieldCount, kInternalFieldCount] at hc
    match fs, hc with
    | [a, b], _ =>
      simp [kWrapperType, kElectronEmbedderId] at ht
      subst ht
      simp [internal.FromV8Impl, Destroyable.IsDestroyed, Obj.InternalFieldCount,
        kInternalFieldCount, Obj.GetAlignedPointerFromInternalField, Access.bind,
        Access.pure, kSlot, kWrapperType, kElectronEmbedderId]
  · intro val p hp hpn
    cases val with
    | nonObject =>
      simp [internal.FromV8Impl, Access.pure] at hp
      exact absurd hp.symm hpn
    | object o =>
      refine ⟨o, rfl, ?_⟩
      by_cases hc : o.InternalFieldCount = kInternalFieldCount
      · obtain ⟨fs, init⟩ := o
        simp only [Obj.InternalFieldCount, kInternalFieldCount] at hc
        match fs, hc with
        | [a, b], _ =>
          by_cases hab : kElectronEmbedderId = a
          · simp [internal.FromV8Impl, Obj.InternalFieldCount, kInternalFieldCount,
              Obj.GetAlignedPointerFromInternalField, Access.bind, Access.pure, kSlot,
              kWrapperType, hab] at hp
            subst hp
            simp [Destroyable.IsDestroyed, Obj.InternalFieldCount,
              Obj.GetAlignedPointerFromInternalField, Access.bind, Access.pure, kSlot, hpn]
          · simp [internal.FromV8Impl, Obj.InternalFieldCount, kInternalFieldCount,
              Obj.GetAlignedPointerFromInternalField, Access.bind, Access.pure, kSlot,
              kWrapperType, hab] at hp
            exact absurd hp.symm hpn
      · simp [internal.FromV8Impl, hc, Access.pure] at hp
        exact absurd hp.symm hpn
  · intro w n h hb
    obtain ⟨w1, h1, -, hfields, -, -, -⟩ := DestroyFunc_of_Bound w n h hb
    refine ⟨w1, h1, ?_, IsDestroyed_of_null_slot _ _ hfields⟩
    simp [internal.FromV8Impl, Obj.InternalFieldCount, kInternalFieldCount,
      Obj.GetAlignedPointerFromInternalField, Access.bind, Access.pure, kSlot,
      kWrapperType, hfields]

/-- C13 at concrete inputs: a bound handle, a destroyed handle, and object 7
bound to the fresh handle 3 and then destroyed by script. -/
theorem C13_lookup_agrees_with_IsDestroyed_witness :
    (((internal.FromV8Impl 1
          (Value.object ⟨[kElectronEmbedderId, Ptr.null], none⟩)).result = some Ptr.null ↔
        (Destroyable.IsDestroyed ⟨[kElectronEmbedderId, Ptr.null], none⟩).result =
          some true)) ∧
    (∃ o, Value.object ⟨[kElectronEmbedderId, Ptr.addr 7], none⟩ = Value.object o ∧
        (Destroyable.IsDestroyed o).result = some false) ∧
    (∃ w0, WrappableBase.InitWith (World.initial freshHeap) 7 1 3 = Except.ok w0 ∧
      Bound w0 7 3 ∧
      ∃ w1, DestroyFunc w0 3 = Except.ok w1 ∧
        (internal.FromV8Impl 1 (Value.object (w1.heap 3))).result = some Ptr.null ∧
        (Destroyable.IsDestroyed (w1.heap 3)).result = some true) :=
  ⟨(C13_lookup_agrees_with_IsDestroyed 1).1 ⟨[kElectronEmbedderId, Ptr.null], none⟩
      (by decide) (by decide),
    (C13_lookup_agrees_with_IsDestroyed 1).2.1
      (Value.object ⟨[kElectronEmbedderId, Ptr.addr 7], none⟩) (Ptr.addr 7)
      (by decide) (by decide),
    ⟨_, rfl, by decide, (C13_lookup_agrees_with_IsDestroyed 1).2.2 _ 7 3 (by decide)⟩⟩

/-! ## C11 -/

/-- What `~WrappableBase` does: when the handle reference of the native object
`n` is the handle `h`, and `h` has a slot B, it returns with slot B of `h` null,
slot A and the field count of `h` unchanged, the handle reference of `n` empty
and no longer weak, so that the collector has no first pass to start for `n`;
it queues nothing and changes no other handle and no other native object. When
the handle reference of `n` is empty it returns the state unchanged. -/
theorem Destructor_effects (w : World) (n : Nat) :
    (∀ h, (w.natives n).wrapper_.target = some h →
      kSlot < (w.heap h).InternalFieldCount →
      ∃ w1, WrappableBase.Destructor w n = Except.ok w1 ∧
        (w1.heap h).fields[kSlot]? = some Ptr.null ∧
        (w1.heap h).fields[kWrapperType]? = (w.heap h).fields[kWrapperType]? ∧
        (w1.heap h).InternalFieldCount = (w.heap h).InternalFieldCount ∧
        (w1.natives n).wrapper_ = ⟨none, none⟩ ∧
        collectFirstPass w1 n = none ∧
        w1.pending = w.pending ∧
        (∀ h1, h1 ≠ h → w1.heap h1 = w.heap h1) ∧
        (∀ m, m ≠ n → w1.natives m = w.natives m) ∧
        w1.log = w.log ++ [Event.setField h kSlot Ptr.null, Event.clearWeak n,
          Event.globalReset n none]) ∧
    ((w.natives n).wrapper_.IsEmpty = true → WrappableBase.Destructor w n = Except.ok w) := by
  constructor
  · intro h ht hs
    have hlt1 : 1 < (w.heap h).fields.length := by
      simpa [Obj.InternalFieldCount, kSlot] using hs
    refine ⟨(World.ClearWeak { w with
        heap := setAt w.heap h { w.heap h with fields := (w.heap h).fields.set kSlot Ptr.null }
        log := w.log ++ [Event.setField h kSlot Ptr.null] } n).Reset n, by
      simp [WrappableBase.Destructor, Global.IsEmpty, ht, WrappableBase.GetWrapper,
        World.SetAlignedPointerInInternalField, Obj.InternalFieldCount, kSlot, hlt1], ?_⟩
    refine ⟨?_, ?_, ?_, ?_, ?_, ?_, ?_, ?_, ?_⟩
    · simp [World.Reset, World.ClearWeak, World.setWrapper, kSlot, hlt1]
    · simp [World.Reset, World.ClearWeak, World.setWrapper, kSlot, kWrapperType]
    · simp [World.Reset, World.ClearWeak, World.setWrapper, Obj.InternalFieldCount]
    · simp [World.Reset, World.ClearWeak, World.setWrapper]
    · simp [collectFirstPass, World.Reset, World.ClearWeak, World.setWrapper]
    · simp [World.Reset, World.ClearWeak, World.setWrapper]
    · intro h1 hne
      simp [World.Reset, World.ClearWeak, World.setWrapper, setAt, hne]
    · intro m hne
      simp [World.Reset, World.ClearWeak, World.setWrapper, setAt, hne]
    · simp [World.Reset, World.ClearWeak, World.setWrapper]
  · intro he
    simp [WrappableBase.Destructor, he]

/-- C11: object 7 is bound to handle 3, the collector runs the first pass, and
object 7 is bound again, to handle 4, before the second pass. Its handle
reference is then the non-empty handle 4, it has not been deallocated, and a
second pass is queued for it. The owner deletes it: `~WrappableBase` nulls slot
B of handle 4 and empties the handle reference, so no first pass can start for
it, but the queued second pass is still there. When that pass fires it runs
`delete` on the address of object 7 a second time. -/
theorem C11_queued_second_pass_still_fires :
    (exec (World.initial freshHeap)
        [Step.bind 7 1 3, Step.firstPass 7, Step.bind 7 1 4]).map
        (fun w => ((w.natives 7).wrapper_, w.freed (Ptr.addr 7), w.pending)) =
      some (⟨some 4, some (Ptr.addr 7)⟩, 0,
        [⟨Ptr.addr 7, [kElectronEmbedderId, Ptr.addr 7]⟩]) ∧
    (exec (World.initial freshHeap)
        [Step.bind 7 1 3, Step.firstPass 7, Step.bind 7 1 4, Step.ownerDelete 7]).map
        (fun w => ((w.heap 4).fields, (w.natives 7).wrapper_,
          (collectFirstPass w 7).isSome, w.freed (Ptr.addr 7), w.pending)) =
      some ([kElectronEmbedderId, Ptr.null], ⟨none, none⟩, false, 1,
        [⟨Ptr.addr 7, [kElectronEmbedderId, Ptr.addr 7]⟩]) ∧
    (exec (World.initial freshHeap)
        [Step.bind 7 1 3, Step.firstPass 7, Step.bind 7 1 4, Step.ownerDelete 7,
          Step.secondPass]).map
        (fun w => (w.freed (Ptr.addr 7),
          w.log.filter (fun e => e matches Event.deleted _))) =
      some (2, [Event.deleted (Ptr.addr 7), Event.deleted (Ptr.addr 7)]) := by
  decide

/-! ## C15 -/

/-- `InitWith` only returns when the handle reference was empty at the call. -/
theorem InitWith_ok_was_empty (w w1 : World) (n : Nat) (isolate : Isolate) (h : HandleId)
    (hok : WrappableBase.InitWith w n isolate h = Except.ok w1) :
    (w.natives n).wrapper_.IsEmpty = true := by
  cases he : (w.natives n).wrapper_.IsEmpty with
  | true => rfl
  | false => simp [WrappableBase.InitWith, he] at hok

/-- C15: both overloads of `GetWrapper` are functions of the members of the
native object alone (they take and return no state) and return exactly the
stored handle reference: the handle `h` when the reference is `h`, the empty
result when it is empty, the same for every isolate argument and so in
particular for the stored one. Hence `GetWrapper` is empty before any
`InitWith` that returns, is `h` while the object is bound to `h`, and is empty
again after the collector's first pass. -/
theorem C15_GetWrapper (self : WrappableBase) (isolate : Isolate) :
    (self.GetWrapper = self.wrapper_.target ∧
      self.GetWrapperIn isolate = self.wrapper_.target) ∧
    (self.wrapper_.IsEmpty = true →
      self.GetWrapper = none ∧ self.GetWrapperIn isolate = none) ∧
    (∀ h, self.wrapper_.target = some h →
      self.GetWrapper = some h ∧ self.GetWrapperIn isolate = some h) ∧
    self.GetWrapperIn self.isolate = self.GetWrapper ∧
    (∀ (w w1 : World) (n : Nat) (h : HandleId),
      WrappableBase.InitWith w n isolate h = Except.ok w1 →
      (w.natives n).GetWrapper = none ∧ (w.natives n).GetWrapperIn isolate = none) ∧
    (∀ (w : World) (n : Nat) (h : HandleId), Bound w n h →
      (w.natives n).GetWrapper = some h ∧ (w.natives n).GetWrapperIn isolate = some h ∧
      ∃ w1, collectFirstPass w n = some w1 ∧
        (w1.natives n).GetWrapper = none ∧ (w1.natives n).GetWrapperIn isolate = none) := by
  have hboth : ∀ (x : WrappableBase) (i : Isolate),
      x.GetWrapper = x.wrapper_.target ∧ x.GetWrapperIn i = x.wrapper_.target := by
    intro x i
    cases ht : x.wrapper_.target <;>
      simp [WrappableBase.GetWrapper, WrappableBase.GetWrapperIn, Global.IsEmpty, ht]
  refine ⟨hboth self isolate, ?_, ?_, ?_, ?_, ?_⟩
  · intro he
    have ht : self.wrapper_.target = none := by simpa [Global.IsEmpty] using he
    rw [(hboth self isolate).1, (hboth self isolate).2, ht]
    exact ⟨rfl, rfl⟩
  · intro h ht
    rw [(hboth self isolate).1, (hboth self isolate).2, ht]
    exact ⟨rfl, rfl⟩
  · rw [(hboth self self.isolate).1, (hboth self self.isolate).2]
  · intro w w1 n h hok
    have he := InitWith_ok_was_empty w w1 n isolate h hok
    have ht : (w.natives n).wrapper_.target = none := by simpa [Global.IsEmpty] using he
    rw [(hboth _ isolate).1, (hboth _ isolate).2, ht]
    exact ⟨rfl, rfl⟩
  · intro w n h hb
    obtain ⟨hf, hw, -⟩ := hb
    refine ⟨?_, ?_, ?_⟩
    · rw [(hboth _ isolate).1, hw]
    · rw [(hboth _ isolate).2, hw]
    · have hs : (w.heap h).fields[kSlot]? = some (Ptr.addr n) := by simp [hf, kSlot]
      have hd := GetInternalField_of_fields (Ptr.addr n) _ _ hs
      refine ⟨WrappableBase.FirstWeakCallback
        { w with collected := setAt w.collected h true }
        ⟨Ptr.addr n, (w.heap h).fields⟩, by simp [collectFirstPass, hw], ?_⟩
      rw [FirstWeakCallback_addr _ _ n hd, (hboth _ isolate).1, (hboth _ isolate).2]
      simp [World.Reset, World.setWrapper]

/-- C15 at concrete inputs: object 7 before it is bound, bound to the fresh
handle 3, and after the collector's first pass. -/
theorem C15_GetWrapper_witness :
    ∃ w0, WrappableBase.InitWith (World.initial freshHeap) 7 1 3 = Except.ok w0 ∧
      Bound w0 7 3 ∧
      (((World.initial freshHeap).natives 7).GetWrapper = none ∧
        ((World.initial freshHeap).natives 7).GetWrapperIn 1 = none) ∧
      ((w0.natives 7).GetWrapper = some 3 ∧ (w0.natives 7).GetWrapperIn 1 = some 3 ∧
        ∃ w1, collectFirstPass w0 7 = some w1 ∧
          (w1.natives 7).GetWrapper = none ∧ (w1.natives 7).GetWrapperIn 1 = none) :=
  ⟨_, rfl, by decide,
    (C15_GetWrapper ((World.initial freshHeap).natives 7) 1).2.2.2.2.1
      (World.initial freshHeap) _ 7 3 rfl,
    (C15_GetWrapper ((World.initial freshHeap).natives 7) 1).2.2.2.2.2 _ 7 3 (by decide)⟩

/-! ## What the operations log -/

/-- A successful write of an internal field logs that write. -/
theorem SetAlignedPointerInInternalField_log (w w1 : World) (h : HandleId) (i : Nat)
    (p : Ptr) (hok : w.SetAlignedPointerInInternalField h i p = Except.ok w1) :
    w1.log = w.log ++ [Event.setField h i p] := by
  unfold World.SetAlignedPointerInInternalField at hok
  split at hok
  · simp only [Except.ok.injEq] at hok
    subst hok
    rfl
  · simp at hok

/-- The destructor calls no hook. -/
theorem Destructor_log (w w1 : World) (a : Nat)
    (hok : WrappableBase.Destructor w a = Except.ok w1) :
    ∃ ev, w1.log = w.log ++ ev ∧ ∀ e ∈ ev, e.isHook = false := by
  unfold WrappableBase.Destructor at hok
  split at hok
  · simp only [Except.ok.injEq] at hok
    subst hok
    exact ⟨[], by simp, by simp⟩
  · split at hok
    · simp only [Except.ok.injEq] at hok
      subst hok
      exact ⟨[], by simp, by simp⟩
    · rename_i h _
      split at hok
      · simp at hok
      · rename_i w2 h2
        simp only [Except.ok.injEq] at hok
        subst hok
        have hl := SetAlignedPointerInInternalField_log w w2 h kSlot Ptr.null h2
        refine ⟨[Event.setField h kSlot Ptr.null, Event.clearWeak a,
          Event.globalReset a none], ?_, ?_⟩
        · simp [World.Reset, World.ClearWeak, World.setWrapper, hl]
        · intro e he
          simp at he
          rcases he with rfl | rfl | rfl <;> rfl

/-- A `delete` calls no hook. -/
theorem delete_log (w w1 : World) (p : Ptr) (hok : w.delete p = Except.ok w1) :
    ∃ ev, w1.log = w.log ++ ev ∧ ∀ e ∈ ev, e.isHook = false := by
  cases p with
  | null =>
    simp [World.delete] at hok
    subst hok
    exact ⟨[], by simp, by simp⟩
  | embedderId =>
    simp [World.delete] at hok
    subst hok
    exact ⟨[Event.deleted Ptr.embedderId], rfl, by
      intro e he
      simp at he
      subst he
      rfl⟩
  | addr a =>
    simp only [World.delete] at hok
    split at hok
    · simp at hok
    · rename_i w2 h2
      simp only [Except.ok.injEq] at hok
      subst hok
      obtain ⟨ev, hev, hno⟩ := Destructor_log w w2 a h2
      refine ⟨ev ++ [Event.deleted (Ptr.addr a)], by simp [hev], ?_⟩
      intro e he
      rcases List.mem_append.mp he with he | he
      · exact hno e he
      · simp at he
        subst he
        rfl

/-- The destroy callback calls no hook. -/
theorem DestroyFunc_log (w w1 : World) (holder : HandleId)
    (hok : DestroyFunc w holder = Except.ok w1) :
    ∃ ev, w1.log = w.log ++ ev ∧ ∀ e ∈ ev, e.isHook = false := by
  unfold DestroyFunc at hok
  split at hok
  · simp at hok
  · simp only [Except.ok.injEq] at hok
    subst hok
    exact ⟨[], by simp, by simp⟩
  · split at hok
    · simp at hok
    · rename_i p _
      split at hok
      · simp at hok
      · rename_i w2 h2
        obtain ⟨ev, hev, hno⟩ := delete_log w w2 p h2
        have hl := SetAlignedPointerInInternalField_log w2 w1 holder kSlot Ptr.null hok
        refine ⟨ev ++ [Event.setField holder kSlot Ptr.null], by simp [hl, hev], ?_⟩
        intro e he
        rcases List.mem_append.mp he with he | he
        · exact hno e he
        · simp at he
          subst he
          rfl

/-- Script code calls no hook. -/
theorem runScript_log (body : List ScriptCall) (w w1 : World)
    (hok : runScript w body = Except.ok w1) :
    ∃ ev, w1.log = w.log ++ ev ∧ ∀ e ∈ ev, e.isHook = false := by
  induction body generalizing w with
  | nil =>
    simp [runScript] at hok
    subst hok
    exact ⟨[], by simp, by simp⟩
  | cons c cs ih =>
    simp only [runScript] at hok
    split at hok
    · simp at hok
    · rename_i w2 h2
      obtain ⟨ev2, hev2, hno2⟩ := ih w2 hok
      have hfirst : ∃ ev, w2.log = w.log ++ ev ∧ ∀ e ∈ ev, e.isHook = false := by
        cases c with
        | destroy h => exact DestroyFunc_log w w2 h h2
        | isDestroyed h =>
          simp only [runCall] at h2
          split at h2
          · simp at h2
          · simp only [Except.ok.injEq] at h2
            subst h2
            exact ⟨[], by simp, by simp⟩
      obtain ⟨ev1, hev1, hno1⟩ := hfirst
      refine ⟨ev1 ++ ev2, by simp [hev2, hev1], ?_⟩
      intro e he
      rcases List.mem_append.mp he with he | he
      · exact hno1 e he
      · exact hno2 e he

/-! ## C16 -/

/-- C16: whenever `InitWith` returns, what it has added to the log is, in this
order: the write of slot A, the write of slot B, the handle reference being set
to the handle, the weak registration; then, if and only if the handle has an
`_init` member, one call of it with zero arguments, followed by whatever that
script did, none of which is a hook call; then one call of `AfterInit`, last.
So the hook calls added are `[call, afterInit]` when the handle has an `_init`
member and `[afterInit]` when it has none. -/
theorem C16_bind_hook_order (w w1 : World) (n : Nat) (isolate : Isolate) (h : HandleId)
    (hok : WrappableBase.InitWith w n isolate h = Except.ok w1) :
    ∃ mid, w1.log = w.log ++
        [Event.setField h kWrapperType kElectronEmbedderId,
          Event.setField h kSlot (Ptr.addr n),
          Event.globalReset n (some h), Event.setWeak n] ++ mid ++ [Event.afterInit n] ∧
      ((w.heap h).init = none → mid = []) ∧
      ((w.heap h).init ≠ none →
        ∃ rest, mid = Event.call h 0 :: rest ∧ ∀ e ∈ rest, e.isHook = false) ∧
      (mid ++ [Event.afterInit n]).filter Event.isHook =
        (if (w.heap h).init = none then [] else [Event.call h 0]) ++ [Event.afterInit n] := by
  unfold WrappableBase.InitWith at hok
  split at hok
  · simp at hok
  · simp only at hok
    split at hok
    · simp at hok
    · rename_i wa ha
      split at hok
      · simp at hok
      · rename_i wb hb
        obtain ⟨-, -, -, -, -, hai, -⟩ :=
          SetAlignedPointerInInternalField_spec _ wa h kWrapperType kElectronEmbedderId ha
        obtain ⟨-, -, -, -, -, hbi, -⟩ :=
          SetAlignedPointerInInternalField_spec wa wb h kSlot (Ptr.addr n) hb
        have hla := SetAlignedPointerInInternalField_log _ wa h kWrapperType _ ha
        have hlb := SetAlignedPointerInInternalField_log wa wb h kSlot _ hb
        have hinit : (((wb.ResetTo n h).SetWeak n (Ptr.addr n)).heap h).init =
            (w.heap h).init := by
          simp [World.SetWeak, World.ResetTo, World.setWrapper, hbi, hai, World.setIsolate]
        have hlog3 : ((wb.ResetTo n h).SetWeak n (Ptr.addr n)).log = w.log ++
            [Event.setField h kWrapperType kElectronEmbedderId,
              Event.setField h kSlot (Ptr.addr n),
              Event.globalReset n (some h), Event.setWeak n] := by
          simp [World.SetWeak, World.ResetTo, World.setWrapper, hlb, hla, World.setIsolate]
        split at hok
        · simp at hok
        · rename_i wc hc
          simp only [Except.ok.injEq] at hok
          subst hok
          rw [hinit] at hc
          cases hi : (w.heap h).init with
          | none =>
            rw [hi] at hc
            simp only [Except.ok.injEq] at hc
            subst hc
            refine ⟨[], ?_, by simp, by simp, ?_⟩
            · simp [WrappableBase.AfterInit, hlog3]
            · simp [Event.isHook]
          | some body =>
            rw [hi] at hc
            simp only at hc
            obtain ⟨ev, hev, hno⟩ := runScript_log body _ wc hc
            refine ⟨Event.call h 0 :: ev, ?_, by simp, ?_, ?_⟩
            · simp [WrappableBase.AfterInit, hev, hlog3]
            · intro _
              exact ⟨ev, rfl, hno⟩
            · have hfil : ev.filter Event.isHook = [] := by
                rw [List.filter_eq_nil_iff]
                intro e he
                simp [hno e he]
              simp [List.filter_cons, List.filter_append, hfil, Event.isHook]

/-- C16 at concrete inputs: a handle with an `_init` member that asks
`isDestroyed` and then destroys the handle, and a handle without one. -/
theorem C16_bind_hook_order_witness :
    (∃ w1, WrappableBase.InitWith
        (World.initial (fun _ => ⟨[Ptr.null, Ptr.null],
          some [ScriptCall.isDestroyed 3, ScriptCall.destroy 3]⟩)) 7 1 3 = Except.ok w1 ∧
      w1.log.filter Event.isHook = [Event.call 3 0, Event.afterInit 7] ∧
      ∃ mid, w1.log = [] ++
          [Event.setField 3 kWrapperType kElectronEmbedderId,
            Event.setField 3 kSlot (Ptr.addr 7),
            Event.globalReset 7 (some 3), Event.setWeak 7] ++ mid ++ [Event.afterInit 7] ∧
        ((some [ScriptCall.isDestroyed 3, ScriptCall.destroy 3] : Option (List ScriptCall)) =
          none → mid = []) ∧
        ((some [ScriptCall.isDestroyed 3, ScriptCall.destroy 3] : Option (List ScriptCall)) ≠
          none → ∃ rest, mid = Event.call 3 0 :: rest ∧ ∀ e ∈ rest, e.isHook = false) ∧
        (mid ++ [Event.afterInit 7]).filter Event.isHook =
          (if (some [ScriptCall.isDestroyed 3, ScriptCall.destroy 3] :
              Option (List ScriptCall)) = none then [] else [Event.call 3 0]) ++
            [Event.afterInit 7]) ∧
    (∃ w1, WrappableBase.InitWith (World.initial freshHeap) 7 1 3 = Except.ok w1 ∧
      w1.log = [Event.setField 3 kWrapperType kElectronEmbedderId,
        Event.setField 3 kSlot (Ptr.addr 7),
        Event.globalReset 7 (some 3), Event.setWeak 7, Event.afterInit 7]) :=
  ⟨⟨_, rfl, by decide,
      C16_bind_hook_order
        (World.initial (fun _ => ⟨[Ptr.null, Ptr.null],
          some [ScriptCall.isDestroyed 3, ScriptCall.destroy 3]⟩)) _ 7 1 3 rfl⟩,
    ⟨_, rfl, by decide⟩⟩

/-! ## An empty handle reference stays empty until the next bind -/

/-- Overwriting an entry with the value it has changes nothing. -/
theorem setAt_eq_self {κ α : Type} [DecidableEq κ] (f : κ → α) (k : κ) (v : α)
    (hv : f k = v) : setAt f k v = f := by
  funext x
  by_cases hx : x = k
  · subst hx
    simp [setAt, hv]
  · simp [setAt, hx]

/-- With both statics filled, `MakeDestroyable` allocates nothing, leaves the
statics alone and sets the two entries of the prototype to them. -/
theorem MakeDestroyable_filled (s : Templates) (isolate : Isolate) (prototype d i : Nat)
    (hd : s.destroy_func = some d) (hi : s.is_destroyed_func = some i) :
    ∃ s1, Destroyable.MakeDestroyable s isolate prototype = some s1 ∧
      s1.destroy_func = some d ∧ s1.is_destroyed_func = some i ∧ s1.next = s.next ∧
      (s1.templ prototype).prototypeTemplate "destroy" = some d ∧
      (s1.templ prototype).prototypeTemplate "isDestroyed" = some i ∧
      (∀ name, name ≠ "destroy" → name ≠ "isDestroyed" →
        (s1.templ prototype).prototypeTemplate name =
          (s.templ prototype).prototypeTemplate name) ∧
      (s1.templ prototype).callback = (s.templ prototype).callback ∧
      (s1.templ prototype).isolate = (s.templ prototype).isolate ∧
      (s1.templ prototype).hasPrototype = (s.templ prototype).hasPrototype ∧
      (∀ t, t ≠ prototype → s1.templ t = s.templ t) := by
  cases hm : Destroyable.MakeDestroyable s isolate prototype with
  | none =>
    simp [Destroyable.MakeDestroyable, GetDestroyFunc, GetIsDestroyedFunc, hd, hi,
      Templates.Set] at hm
  | some s1 =>
    simp only [Destroyable.MakeDestroyable, GetDestroyFunc, GetIsDestroyedFunc, hd, hi,
      Templates.Set, Option.isNone_some, Bool.false_eq_true, if_false,
      Option.some.injEq] at hm
    subst hm
    refine ⟨_, rfl, rfl, rfl, rfl, ?_, ?_, ?_, ?_, ?_, ?_, ?_⟩
    · simp [setAt]
    · simp [setAt]
    · intro name h1 h2
      simp [setAt, h1, h2]
    · simp [setAt]
    · simp [setAt]
    · simp [setAt]
    · intro t ht
      simp [setAt, ht]

/-- With both statics filled and the two entries of the prototype already set
to them, `MakeDestroyable` returns the state it was given. -/
theorem MakeDestroyable_fixed (s : Templates) (isolate : Isolate) (prototype d i : Nat)
    (hd : s.destroy_func = some d) (hi : s.is_destroyed_func = some i)
    (h1 : (s.templ prototype).prototypeTemplate "destroy" = some d)
    (h2 : (s.templ prototype).prototypeTemplate "isDestroyed" = some i) :
    Destroyable.MakeDestroyable s isolate prototype = some s := by
  obtain ⟨templ, next, df, idf⟩ := s
  simp only at hd hi h1 h2
  subst hd hi
  have hp1 : setAt (templ prototype).prototypeTemplate "destroy" (some d) =
      (templ prototype).prototypeTemplate := setAt_eq_self _ _ _ h1
  have hp2 : setAt (templ prototype).prototypeTemplate "isDestroyed" (some i) =
      (templ prototype).prototypeTemplate := setAt_eq_self _ _ _ h2
  simp [Destroyable.MakeDestroyable, GetDestroyFunc, GetIsDestroyedFunc, Templates.Set,
    hp1, hp2, setAt_eq_self]

/-- With the first static empty, `MakeDestroyable` creates the two templates,
stores them in the statics and sets the two entries of the prototype to them. -/
theorem MakeDestroyable_empty (s : Templates) (isolate : Isolate) (prototype : Nat)
    (hd : s.destroy_func = none) :
    ∃ s1, Destroyable.MakeDestroyable s isolate prototype = some s1 ∧
      s1.destroy_func = some s.next ∧ s1.is_destroyed_func = some (s.next + 1) ∧
      s1.next = s.next + 2 ∧
      (s1.templ prototype).prototypeTemplate "destroy" = some s.next ∧
      (s1.templ prototype).prototypeTemplate "isDestroyed" = some (s.next + 1) ∧
      (s1.templ s.next).callback = some Callback.DestroyFunc ∧
      (s1.templ (s.next + 1)).callback = some Callback.IsDestroyedFunc ∧
      (s1.templ s.next).hasPrototype = false ∧
      (s1.templ (s.next + 1)).hasPrototype = false ∧
      (s1.templ s.next).isolate = isolate ∧
      (s1.templ (s.next + 1)).isolate = isolate := by
  cases hm : Destroyable.MakeDestroyable s isolate prototype with
  | none =>
    simp [Destroyable.MakeDestroyable, GetDestroyFunc, GetIsDestroyedFunc, hd,
      Templates.Set, Templates.New, Templates.RemovePrototype] at hm
  | some s1 =>
    simp only [Destroyable.MakeDestroyable, GetDestroyFunc, GetIsDestroyedFunc, hd,
      Templates.Set, Templates.New, Templates.RemovePrototype, Option.isNone_none,
      if_true, Option.some.injEq] at hm
    subst hm
    refine ⟨_, rfl, rfl, rfl, rfl, ?_, ?_, ?_, ?_, ?_, ?_, ?_, ?_⟩
    · simp [setAt]
    · simp [setAt]
    · by_cases hp : s.next = prototype <;> simp [setAt, hp]
    · by_cases hp : s.next + 1 = prototype <;> simp [setAt, hp]
    · by_cases hp : s.next = prototype <;> simp [setAt, hp]
    · by_cases hp : s.next + 1 = prototype <;> simp [setAt, hp]
    · by_cases hp : s.next = prototype <;> simp [setAt, hp]
    · by_cases hp : s.next + 1 = prototype <;> simp [setAt, hp]

/-- After any `MakeDestroyable` that starts with the two statics both empty or
both filled, both are filled. -/
theorem MakeDestroyable_fills (s s1 : Templates) (isolate : Isolate) (prototype : Nat)
    (hinv : s.destroy_func = none ↔ s.is_destroyed_func = none)
    (hok : Destroyable.MakeDestroyable s isolate prototype = some s1) :
    s1.destroy_func ≠ none ∧ s1.is_destroyed_func ≠ none := by
  cases hd : s.destroy_func with
  | none =>
    obtain ⟨s2, h2, hd2, hi2, -⟩ := MakeDestroyable_empty s isolate prototype hd
    rw [hok] at h2
    simp only [Option.some.injEq] at h2
    subst h2
    simp [hd2, hi2]
  | some d =>
    cases hi : s.is_destroyed_func with
    | none =>
      rw [hinv.mpr hi] at hd
      simp at hd
    | some i =>
      obtain ⟨s2, h2, hd2, hi2, -⟩ := MakeDestroyable_filled s isolate prototype d i hd hi
      rw [hok] at h2
      simp only [Option.some.injEq] at h2
      subst h2
      simp [hd2, hi2]

/-- In every state reached by `MakeDestroyable` calls from two empty statics,
one static is empty exactly when the other is. -/
theorem makeAll_cache_inv (calls : List (Isolate × Nat)) (s0 s : Templates)
    (hinv : s0.destroy_func = none ↔ s0.is_destroyed_func = none)
    (hr : makeAll s0 calls = some s) :
    (s.destroy_func = none ↔ s.is_destroyed_func = none) := by
  induction calls generalizing s0 with
  | nil =>
    simp [makeAll] at hr
    subst hr
    exact hinv
  | cons c rest ih =>
    simp only [makeAll] at hr
    split at hr
    · simp at hr
    · rename_i s1 h1
      obtain ⟨ha, hb⟩ := MakeDestroyable_fills s0 s1 c.1 c.2 hinv h1
      exact ih s1 ⟨fun h => absurd h ha, fun h => absurd h hb⟩ hr

/-! ## C14 -/

/-- C14: let `s` be any state reached from two empty statics by `MakeDestroyable`
calls. In `s` the destroy static is empty exactly when the isDestroyed static
is. A further call, for any isolate and any prototype, returns; afterwards both
statics are filled and the `destroy` and `isDestroyed` entries of the prototype
are the two cached templates. If the destroy static was empty (the first call)
the two are newly created templates around `DestroyFunc` and `IsDestroyedFunc`
with their prototypes removed; if it was filled (every later call) the statics
are unchanged and no template is created. Calling again on the same prototype,
with any isolate, returns the very same state; calling again with any other
prototype leaves the statics unchanged and sets that prototype's two entries to
the same two templates. -/
theorem C14_MakeDestroyable_builds_once (templ : Nat → FunctionTemplate) (next : Nat)
    (calls : List (Isolate × Nat)) (s : Templates)
    (hr : makeAll (Templates.initial templ next) calls = some s)
    (isolate : Isolate) (prototype : Nat) :
    (s.destroy_func = none ↔ s.is_destroyed_func = none) ∧
    ∃ s1 d i, Destroyable.MakeDestroyable s isolate prototype = some s1 ∧
      s1.destroy_func = some d ∧ s1.is_destroyed_func = some i ∧
      (s1.templ prototype).prototypeTemplate "destroy" = some d ∧
      (s1.templ prototype).prototypeTemplate "isDestroyed" = some i ∧
      (s.destroy_func = none →
        d = s.next ∧ i = s.next + 1 ∧ s1.next = s.next + 2 ∧
        (s1.templ d).callback = some Callback.DestroyFunc ∧
        (s1.templ i).callback = some Callback.IsDestroyedFunc ∧
        (s1.templ d).hasPrototype = false ∧ (s1.templ i).hasPrototype = false) ∧
      (s.destroy_func ≠ none →
        s1.destroy_func = s.destroy_func ∧ s1.is_destroyed_func = s.is_destroyed_func ∧
        s1.next = s.next) ∧
      (∀ isolate2, Destroyable.MakeDestroyable s1 isolate2 prototype = some s1) ∧
      (∀ isolate2 prototype2, ∃ s2,
        Destroyable.MakeDestroyable s1 isolate2 prototype2 = some s2 ∧
        s2.destroy_func = some d ∧ s2.is_destroyed_func = some i ∧ s2.next = s1.next ∧
        (s2.templ prototype2).prototypeTemplate "destroy" = some d ∧
        (s2.templ prototype2).prototypeTemplate "isDestroyed" = some i) := by
  have hinv : s.destroy_func = none ↔ s.is_destroyed_func = none :=
    makeAll_cache_inv calls _ s (by simp [Templates.initial]) hr
  refine ⟨hinv, ?_⟩
  have later : ∀ (s1 : Templates) (d i : Nat), s1.destroy_func = some d →
      s1.is_destroyed_func = some i →
      ∀ isolate2 prototype2, ∃ s2,
        Destroyable.MakeDestroyable s1 isolate2 prototype2 = some s2 ∧
        s2.destroy_func = some d ∧ s2.is_destroyed_func = some i ∧ s2.next = s1.next ∧
        (s2.templ prototype2).prototypeTemplate "destroy" = some d ∧
        (s2.templ prototype2).prototypeTemplate "isDestroyed" = some i := by
    intro s1 d i hd1 hi1 isolate2 prototype2
    obtain ⟨s2, h2, hd2, hi2, hn2, he1, he2, -⟩ :=
      MakeDestroyable_filled s1 isolate2 prototype2 d i hd1 hi1
    exact ⟨s2, h2, hd2, hi2, hn2, he1, he2⟩
  cases hd : s.destroy_func with
  | none =>
    obtain ⟨s1, h1, hd1, hi1, hn1, he1, he2, hc1, hc2, hp1, hp2, -, -⟩ :=
      MakeDestroyable_empty s isolate prototype hd
    refine ⟨s1, s.next, s.next + 1, h1, hd1, hi1, he1, he2, ?_, ?_, ?_, later s1 _ _ hd1 hi1⟩
    · intro _
      exact ⟨rfl, rfl, hn1, hc1, hc2, hp1, hp2⟩
    · intro hne
      exact absurd rfl hne
    · intro isolate2
      exact MakeDestroyable_fixed s1 isolate2 prototype _ _ hd1 hi1 he1 he2
  | some d =>
    cases hi : s.is_destroyed_func with
    | none =>
      rw [hinv.mpr hi] at hd
      simp at hd
    | some i =>
      obtain ⟨s1, h1, hd1, hi1, hn1, he1, he2, -⟩ :=
        MakeDestroyable_filled s isolate prototype d i hd hi
      refine ⟨s1, d, i, h1, hd1, hi1, he1, he2, ?_, ?_, ?_, later s1 d i hd1 hi1⟩
      · intro hnone
        simp at hnone
      · intro _
        exact ⟨hd1, hi1, hn1⟩
      · intro isolate2
        exact MakeDestroyable_fixed s1 isolate2 prototype d i hd1 hi1 he1 he2

/-- C14 at concrete inputs: after one call for prototype 3 in isolate 1, a call
for prototype 4 in isolate 2. -/
theorem C14_MakeDestroyable_builds_once_witness :
    ∃ s, makeAll (Templates.initial (fun _ => ⟨0, none, true, fun _ => none⟩) 10)
        [(1, 3)] = some s ∧
      s.destroy_func = some 10 ∧ s.is_destroyed_func = some 11 ∧
      (s.destroy_func = none ↔ s.is_destroyed_func = none) ∧
      ∃ s1 d i, Destroyable.MakeDestroyable s 2 4 = some s1 ∧
        s1.destroy_func = some d ∧ s1.is_destroyed_func = some i ∧
        (s1.templ 4).prototypeTemplate "destroy" = some d ∧
        (s1.templ 4).prototypeTemplate "isDestroyed" = some i ∧
        (s.destroy_func = none →
          d = s.next ∧ i = s.next + 1 ∧ s1.next = s.next + 2 ∧
          (s1.templ d).callback = some Callback.DestroyFunc ∧
          (s1.templ i).callback = some Callback.IsDestroyedFunc ∧
          (s1.templ d).hasPrototype = false ∧ (s1.templ i).hasPrototype = false) ∧
        (s.destroy_func ≠ none →
          s1.destroy_func = s.destroy_func ∧ s1.is_destroyed_func = s.is_destroyed_func ∧
          s1.next = s.next) ∧
        (∀ isolate2, Destroyable.MakeDestroyable s1 isolate2 4 = some s1) ∧
        (∀ isolate2 prototype2, ∃ s2,
          Destroyable.MakeDestroyable s1 isolate2 prototype2 = some s2 ∧
          s2.destroy_func = some d ∧ s2.is_destroyed_func = some i ∧ s2.next = s1.next ∧
          (s2.templ prototype2).prototypeTemplate "destroy" = some d ∧
          (s2.templ prototype2).prototypeTemplate "isDestroyed" = some i) :=
  ⟨_, rfl, rfl, rfl,
    C14_MakeDestroyable_builds_once (fun _ => ⟨0, none, true, fun _ => none⟩) 10
      [(1, 3)] _ rfl 2 4⟩

/-- C12 at concrete inputs: an object without internal fields, a destroyed
handle and a bound handle. -/
theorem C12_IsDestroyed_total_witness :
    Destroyable.IsDestroyed ⟨[], none⟩ = ⟨some true, []⟩ ∧
    Destroyable.IsDestroyed ⟨[kElectronEmbedderId, Ptr.null], none⟩ = ⟨some true, [kSlot]⟩ ∧
    Destroyable.IsDestroyed ⟨[kElectronEmbedderId, Ptr.addr 7], none⟩ =
      ⟨some false, [kSlot]⟩ ∧
    (Destroyable.IsDestroyed ⟨[Ptr.addr 99], none⟩).result =
      some (decide ((⟨[Ptr.addr 99], none⟩ : Obj).InternalFieldCount ≤ kSlot ∨
        (⟨[Ptr.addr 99], none⟩ : Obj).fields[kSlot]? = some Ptr.null)) :=
  ⟨by decide, by decide, by decide,
    (C12_IsDestroyed_total (World.initial freshHeap) 0 ⟨[Ptr.addr 99], none⟩).1⟩

end gin_helper
